import Mathlib

/-!
Verification development for the ace-mail backend (src/backend/app.py).

The file shallowly embeds the mailbox synchronization and mutation logic of
`app.py`: the full sync endpoint `sync_emails`, the incremental sync endpoint
`sync_new_emails`, the single-message mutations `delete_email`,
`restore_email`, `archive_email`, and the batch endpoint `bulk_email_action`.

Modelling conventions, stated once here:

* The local SQLAlchemy store is a `LocalState`: a list of `EmailRecord` rows
  (in insertion order) plus the autoincrement counter for the primary key.
  Only the columns the synchronization / mutation logic reads or writes are
  modelled (`id`, `user_id`, `message_id_header`, `folder`, `imap_uid`);
  pure presentation columns (subject, bodies, classification hints, embedding)
  are carried by no claim and are omitted.
* The remote IMAP server is a deterministic environment: `ImapServer` for the
  sync endpoints (probe outcomes, search results, fetch results) and
  `ImapEnv` for the mutation endpoints (whether each protocol command
  raises).  `select` returning a non-OK status and `select` raising are
  represented by the same boolean; at every site where the source
  distinguishes them the resulting control flow is identical.
* Database commits are modelled as succeeding; the source logs and skips a
  failing commit, which no claim exercises.
* Python truthiness of the optional `message_id_header` string and of the
  optional integer `imap_uid` is modelled explicitly (`pyTruthy`,
  `uidTruthy`): `None` and `""` / `0` are falsy.
* `Email.query.filter_by(...).order_by(Email.imap_uid.desc()).first()` is
  modelled with PostgreSQL semantics (the deployed engine, forced by the
  pgvector column): `NULL` sorts first under `DESC`, and comparing the
  resulting Python `None` with an integer raises, which the endpoint's
  handler turns into an error response.
-/

/-- Python truthiness of an optional string (`None` and `""` are falsy). -/
def pyTruthy : Option String → Bool
  | none => false
  | some s => s != ""

/-- Python truthiness of an optional integer (`None` and `0` are falsy). -/
def uidTruthy : Option Nat → Bool
  | none => false
  | some n => n != 0

/-- Python `str.strip('<>')`: remove leading and trailing angle brackets. -/
def stripAngles (s : String) : String :=
  let isAngle : Char → Bool := fun c => c == '<' || c == '>'
  String.mk (((s.toList.dropWhile isAngle).reverse.dropWhile isAngle).reverse)

/-- Python slice `l[-limit:]`: the last `limit` elements, except that
`limit = 0` yields the whole list (`l[-0:]` is `l[0:]`). -/
def pyTail (limit : Nat) (l : List α) : List α :=
  if limit = 0 then l else l.drop (l.length - limit)

/-- One row of the `emails` table, restricted to the columns the sync and
mutation logic manipulates.  `id` is the primary key. -/
structure EmailRecord where
  id : Nat
  user_id : Nat
  message_id_header : Option String
  folder : String
  imap_uid : Option Nat
deriving DecidableEq, Repr

/-- The local store: rows in insertion order plus the autoincrement counter. -/
structure LocalState where
  records : List EmailRecord
  nextId : Nat
deriving DecidableEq, Repr

def emptyState : LocalState := ⟨[], 0⟩

/-- The part of a parsed remote message the dedup logic reads: the raw
`Message-ID` header value, `""` when the header is absent (`parsed_mail.message_id`
falsy). -/
structure RemoteMessage where
  message_id : String
deriving DecidableEq, Repr

/-- Outcome of `mail.uid('fetch', uid, '(RFC822)')` followed by parsing.
`fail` is a non-OK status or empty data (the loop continues with no side
effect); `notTuple` is fetched data that is not the expected tuple shape (the
full sync still counts it toward its limit); `parseFail` is a mailparser
exception; `ok` carries the parsed message. -/
inductive FetchResult
  | fail
  | notTuple
  | parseFail
  | ok (m : RemoteMessage)
deriving DecidableEq, Repr

/-- The remote IMAP server as seen by the sync endpoints.  `selectOk f` says
whether selecting folder `f` returns OK (a raising `select` is conflated with
a non-OK one; the source reacts identically at every probing site).
`searchAll f` is the UID list returned for `SEARCH ALL` in folder `f`;
`searchSince f n` for `UID n:*`.  `fetch f uid` is the fetch outcome. -/
structure ImapServer where
  connectOk : Bool
  selectOk : String → Bool
  searchAll : String → List Nat
  searchSince : String → Nat → List Nat
  fetch : String → Nat → FetchResult

/-- `folder_mapping` dict of `sync_emails` / `sync_new_emails`
(`.get(folder, 'INBOX')`). -/
def folderMappingSync (f : String) : String :=
  if f = "inbox" then "INBOX"
  else if f = "sent" then "Sent"
  else if f = "drafts" then "Drafts"
  else if f = "trash" then "Trash"
  else if f = "spam" then "Spam"
  else "INBOX"

/-- `possible_sent_folders` of the sync endpoints. -/
def possibleSentFoldersSync : List String :=
  ["[Gmail]/Sent Mail", "Sent", "Sent Items", "INBOX.Sent", "[Gmail]/Sent", "Sent Messages"]

/-- The sent-folder probe loop of the sync endpoints: first candidate whose
read-only select returns OK. -/
def resolveSentSync (server : ImapServer) : Option String :=
  possibleSentFoldersSync.find? server.selectOk

/-- What one iteration of a sync loop did with a UID. -/
inductive IngestOutcome
  | skippedExisting
  | fetchFailed
  | notTuple
  | parseFailed
  | skippedMsgId
  | inserted (r : EmailRecord)
deriving DecidableEq, Repr

def IngestOutcome.isInserted : IngestOutcome → Bool
  | .inserted _ => true
  | _ => false

/-- Line 447: `message_id_header = str(message_id_val.strip('<>')) if
message_id_val else None`. -/
def headerOf (m : RemoteMessage) : Option String :=
  if m.message_id = "" then none else some (stripAngles m.message_id)

/-- The row the sync loops insert (only the claim-relevant columns). -/
def mkRecord (st : LocalState) (u : Nat) (folder : String) (hdr : Option String)
    (uid : Nat) : EmailRecord :=
  { id := st.nextId, user_id := u, message_id_header := hdr,
    folder := folder, imap_uid := some uid }

/-- The shared per-UID body of both sync loops (`app.py` lines 394-527 and
624-755 are the same logic): skip when a record for (user, uid) exists in any
folder; fetch and parse; skip when the (stripped, truthy) Message-ID already
exists for the user; otherwise insert the new row and commit. -/
def processUid (u : Nat) (folder : String) (fetch : Nat → FetchResult)
    (st : LocalState) (uid : Nat) : LocalState × IngestOutcome :=
  if (st.records.find? (fun r => r.user_id == u && r.imap_uid == some uid)).isSome then
    (st, .skippedExisting)
  else
    match fetch uid with
    | .fail => (st, .fetchFailed)
    | .notTuple => (st, .notTuple)
    | .parseFail => (st, .parseFailed)
    | .ok m =>
      if pyTruthy (headerOf m) &&
          (st.records.find?
            (fun r => r.user_id == u && r.message_id_header == headerOf m)).isSome then
        (st, .skippedMsgId)
      else
        ({ records := st.records ++ [mkRecord st u folder (headerOf m) uid],
           nextId := st.nextId + 1 },
         .inserted (mkRecord st u folder (headerOf m) uid))

/-- The full-sync message loop (`sync_emails` lines 392-531), including the
`fetched_count >= limit` break; `fetched_count` advances exactly when the
fetch produced data (`inserted` or `notTuple`). -/
def syncLoop (u : Nat) (folder : String) (fetch : Nat → FetchResult) (limit : Nat) :
    List Nat → LocalState → Nat → Nat → LocalState × Nat
  | [], st, _, newCount => (st, newCount)
  | uid :: rest, st, fetched, newCount =>
    let p := processUid u folder fetch st uid
    match p.2 with
    | .inserted _ =>
      if fetched + 1 ≥ limit then (p.1, newCount + 1)
      else syncLoop u folder fetch limit rest p.1 (fetched + 1) (newCount + 1)
    | .notTuple =>
      if fetched + 1 ≥ limit then (p.1, newCount)
      else syncLoop u folder fetch limit rest p.1 (fetched + 1) newCount
    | _ => syncLoop u folder fetch limit rest p.1 fetched newCount

/-- The incremental-sync message loop (`sync_new_emails` lines 620-755):
UIDs at or below the cursor are skipped, there is no break. -/
def syncNewLoop (u : Nat) (folder : String) (fetch : Nat → FetchResult) (lastUid : Nat) :
    List Nat → LocalState → Nat → LocalState × Nat
  | [], st, newCount => (st, newCount)
  | uid :: rest, st, newCount =>
    if uid ≤ lastUid then syncNewLoop u folder fetch lastUid rest st newCount
    else
      let p := processUid u folder fetch st uid
      match p.2 with
      | .inserted _ => syncNewLoop u folder fetch lastUid rest p.1 (newCount + 1)
      | _ => syncNewLoop u folder fetch lastUid rest p.1 newCount

/-- Breakless reference fold used by the proofs: both source loops reduce to
it on the inputs the theorems discuss. -/
def syncFold (u : Nat) (folder : String) (fetch : Nat → FetchResult) :
    List Nat → LocalState → Nat → LocalState × Nat
  | [], st, newCount => (st, newCount)
  | uid :: rest, st, newCount =>
    let p := processUid u folder fetch st uid
    syncFold u folder fetch rest p.1 (if p.2.isInserted then newCount + 1 else newCount)

/-- Result status of an endpoint call, as surfaced to the HTTP layer. -/
inductive SyncStatus
  | success
  | warning (msg : String)
  | error (msg : String)
deriving DecidableEq, Repr

/-- The full sync endpoint `sync_emails` (lines 303-541): connect, resolve the
folder (probing the sent candidates, or selecting the mapped folder with an
INBOX fallback), search all UIDs, and run the message loop over the most
recent `limit` UIDs in reversed order.  When no sent candidate is accepted
the endpoint selects INBOX, logs out and returns a warning without syncing.
A connect or login failure is fatal to the call; a failing `SEARCH` (not
modelled separately) likewise only produces an error response with no local
change. -/
def sync_emails (u : Nat) (folder : String) (limit : Nat) (server : ImapServer)
    (st : LocalState) : LocalState × SyncStatus × Nat :=
  if !server.connectOk then (st, .error "IMAP operation failed", 0)
  else if folder = "sent" then
    match resolveSentSync server with
    | none =>
      (st, .warning "No sent folder found. Please check your email provider settings.", 0)
    | some f =>
      let uids := server.searchAll f
      let r := syncLoop u folder (server.fetch f) limit ((pyTail limit uids).reverse) st 0 0
      (r.1, .success, r.2)
  else
    let f0 := folderMappingSync folder
    let f := if server.selectOk f0 then f0 else "INBOX"
    let uids := server.searchAll f
    let r := syncLoop u folder (server.fetch f) limit ((pyTail limit uids).reverse) st 0 0
    (r.1, .success, r.2)

/-- The cursor computation of `sync_new_emails` (lines 565-566):
`filter_by(user_id, folder).order_by(imap_uid.desc()).first()`, then
`last_uid = latest.imap_uid if latest else 0`.  Under PostgreSQL `NULL`
sorts first in `DESC` order, so when the folder has any row with a `NULL`
`imap_uid` the Python value is `None` (outer `none` here), and the later
`last_uid > 0` comparison raises. -/
def lastUidQ (st : LocalState) (u : Nat) (folder : String) : Option Nat :=
  let recs := st.records.filter (fun r => r.user_id == u && r.folder == folder)
  if recs.isEmpty then some 0
  else if recs.any (fun r => r.imap_uid == none) then none
  else some ((recs.filterMap (fun r => r.imap_uid)).foldl max 0)

/-- The incremental sync endpoint `sync_new_emails` (lines 544-768): compute
the cursor, connect, resolve the folder as in full sync (returning a warning
when no sent candidate is accepted), search `UID last+1:*` when the cursor is
positive and `ALL` otherwise, and run the incremental loop over the most
recent 20 UIDs in reversed order.  A `None` cursor (folder whose rows all
lack a UID) raises at `last_uid > 0` and is surfaced as an error response
with no local change. -/
def sync_new_emails (u : Nat) (folder : String) (server : ImapServer)
    (st : LocalState) : LocalState × SyncStatus × Nat :=
  let lastUidPy := lastUidQ st u folder
  if !server.connectOk then (st, .error "Incremental sync failed", 0)
  else
    let run : String → LocalState × SyncStatus × Nat := fun f =>
      match lastUidPy with
      | none => (st, .error "Incremental sync failed", 0)
      | some lastUid =>
        let uids := if lastUid > 0 then server.searchSince f (lastUid + 1)
                    else server.searchAll f
        let r := syncNewLoop u folder (server.fetch f) lastUid ((pyTail 20 uids).reverse) st 0
        (r.1, .success, r.2)
    if folder = "sent" then
      match resolveSentSync server with
      | none => (st, .warning "No sent folder found.", 0)
      | some f => run f
    else
      let f0 := folderMappingSync folder
      let f := if server.selectOk f0 then f0 else "INBOX"
      run f

/-- One sync call, for stating properties of arbitrary call sequences. -/
inductive SyncCall
  | full (folder : String) (limit : Nat) (server : ImapServer)
  | incr (folder : String) (server : ImapServer)

def runSync (u : Nat) (st : LocalState) : SyncCall → LocalState
  | .full folder limit server => (sync_emails u folder limit server st).1
  | .incr folder server => (sync_new_emails u folder server st).1

def runSyncs (u : Nat) (st : LocalState) (calls : List SyncCall) : LocalState :=
  calls.foldl (runSync u) st

/-! ## Mutation endpoints -/

/-- One IMAP protocol command attempted by a mutation endpoint, in order. -/
inductive ImapCmd
  | connect
  | select (folder : String)
  | copy (uid : Nat) (dest : String)
  | storeDeleted (uid : Nat)
  | expunge
deriving DecidableEq, Repr

def ImapCmd.isCopy : ImapCmd → Bool
  | .copy _ _ => true
  | _ => false

/-- The remote environment of a mutation call.  `connectOk` is whether
`IMAP4_SSL` + `login` succeed; `selectOk f` is whether selecting `f` returns
OK (raising conflated with non-OK, as in the sync model); the three `Raises`
flags say whether the corresponding command raises when attempted. -/
structure ImapEnv where
  connectOk : Bool
  selectOk : String → Bool
  copyRaises : Bool
  storeRaises : Bool
  expungeRaises : Bool

/-- Result of a single-message mutation endpoint: the new local store, the
JSON `status` field, the HTTP code, and the remote commands attempted. -/
structure MutResult where
  st : LocalState
  status : String
  code : Nat
  trace : List ImapCmd
deriving Repr

/-- `folder_mapping` dict of `delete_email` / `restore_email` /
`archive_email` / `bulk_email_action` (`sent` maps to `[Gmail]/Sent Mail`
here, unlike the sync endpoints). -/
def folderMappingMut (f : String) : String :=
  if f = "inbox" then "INBOX"
  else if f = "sent" then "[Gmail]/Sent Mail"
  else if f = "drafts" then "Drafts"
  else if f = "trash" then "Trash"
  else if f = "spam" then "Spam"
  else "INBOX"

/-- `possible_sent_folders` of the mutation endpoints (four candidates). -/
def possibleSentFoldersMut : List String :=
  ["[Gmail]/Sent Mail", "Sent", "Sent Items", "INBOX.Sent"]

/-- `trash_folders` of `delete_email` / `restore_email`. -/
def trashFoldersMut : List String :=
  ["[Gmail]/Trash", "Trash", "Deleted Items", "INBOX.Trash"]

/-- `archive_folders` of `archive_email`. -/
def archiveFoldersMut : List String :=
  ["[Gmail]/All Mail", "Archive", "INBOX.Archive", "Archived"]

/-- Probe a candidate list with `select`, returning the first accepted
candidate and the commands attempted (each candidate up to and including the
winner is selected once). -/
def probeFolders (env : ImapEnv) : List String → Option String × List ImapCmd
  | [] => (none, [])
  | c :: rest =>
    if env.selectOk c then (some c, [.select c])
    else
      let r := probeFolders env rest
      (r.1, .select c :: r.2)

/-- `Email.query.filter_by(id=email_id, user_id=user.id).first()`. -/
def findById (st : LocalState) (u : Nat) (eid : Nat) : Option EmailRecord :=
  st.records.find? (fun r => r.id == eid && r.user_id == u)

/-- Set the `folder` column of the row with primary key `eid`. -/
def setFolder (st : LocalState) (eid : Nat) (f : String) : LocalState :=
  { st with records :=
      st.records.map (fun r => if r.id == eid then { r with folder := f } else r) }

/-- `db.session.delete` of the row with primary key `eid`. -/
def removeRecord (st : LocalState) (eid : Nat) : LocalState :=
  { st with records := st.records.filter (fun r => !(r.id == eid)) }

/-- Source-folder selection shared by `delete_email` and `archive_email`
(probe the four sent candidates when the row is in `sent`, else select the
mapped folder and fall back to INBOX): the resulting current IMAP folder and
the selects attempted. -/
def selectCurrentFolder (env : ImapEnv) (folder : String) : String × List ImapCmd :=
  if folder = "sent" then
    let p := probeFolders env possibleSentFoldersMut
    match p.1 with
    | some f => (f, p.2)
    | none => (folderMappingMut "sent", p.2)
  else
    let f0 := folderMappingMut folder
    if env.selectOk f0 then (f0, [.select f0])
    else ("INBOX", [.select f0, .select "INBOX"])

/-- The delete endpoint `delete_email` (lines 1200-1356).  With IMAP
unavailable the local fallback commits directly.  Otherwise any exception in
the IMAP block falls through to the same local fallback with `imap_success`
still false (`status = "warning"`).  With a truthy UID: a permanent delete
(or a delete of a row already in `trash`) flags and expunges in place and
removes the row; a non-permanent delete probes the trash candidates, copies
and flag-expunges (degrading to a bare flag when the copy or a probe fails),
and sets the row's folder to `trash`.  A falsy UID performs the local change
only, reported as a warning. -/
def delete_email (st : LocalState) (u : Nat) (eid : Nat) (permanent : Bool)
    (imapConfigured : Bool) (env : ImapEnv) : MutResult :=
  match findById st u eid with
  | none => ⟨st, "error", 404, []⟩
  | some email =>
    let localDel := permanent || email.folder == "trash"
    let fallbackState := if localDel then removeRecord st eid else setFolder st eid "trash"
    if !imapConfigured then ⟨fallbackState, "success", 200, []⟩
    else if !env.connectOk then ⟨fallbackState, "warning", 200, [.connect]⟩
    else
      let sel := selectCurrentFolder env email.folder
      let pre := ImapCmd.connect :: sel.2
      if !uidTruthy email.imap_uid then
        ⟨fallbackState, "warning", 200, pre⟩
      else
        let uidv := email.imap_uid.getD 0
        if localDel then
          if env.storeRaises then
            ⟨fallbackState, "warning", 200, pre ++ [.storeDeleted uidv]⟩
          else if env.expungeRaises then
            ⟨fallbackState, "warning", 200, pre ++ [.storeDeleted uidv, .expunge]⟩
          else
            ⟨removeRecord st eid, "success", 200, pre ++ [.storeDeleted uidv, .expunge]⟩
        else
          let probe := probeFolders env trashFoldersMut
          match probe.1 with
          | some tf =>
            let pre2 := pre ++ probe.2 ++ [.select sel.1]
            if env.copyRaises then
              -- copy raised: the inner handler retries a bare store
              if env.storeRaises then
                ⟨fallbackState, "warning", 200,
                  pre2 ++ [.copy uidv tf, .storeDeleted uidv]⟩
              else
                ⟨setFolder st eid "trash", "success", 200,
                  pre2 ++ [.copy uidv tf, .storeDeleted uidv]⟩
            else if env.storeRaises then
              -- store raised, and the inner handler's retry raises again
              ⟨fallbackState, "warning", 200,
                pre2 ++ [.copy uidv tf, .storeDeleted uidv, .storeDeleted uidv]⟩
            else if env.expungeRaises then
              -- expunge raised: the inner handler retries a bare store
              ⟨setFolder st eid "trash", "success", 200,
                pre2 ++ [.copy uidv tf, .storeDeleted uidv, .expunge, .storeDeleted uidv]⟩
            else
              ⟨setFolder st eid "trash", "success", 200,
                pre2 ++ [.copy uidv tf, .storeDeleted uidv, .expunge]⟩
          | none =>
            -- no trash folder: bare store, unguarded
            if env.storeRaises then
              ⟨fallbackState, "warning", 200, pre ++ probe.2 ++ [.storeDeleted uidv]⟩
            else
              ⟨setFolder st eid "trash", "success", 200, pre ++ probe.2 ++ [.storeDeleted uidv]⟩

/-- The restore endpoint `restore_email` (lines 1359-1467).  A row not in
`trash` is rejected with a 400 error before any remote step.  Otherwise the
local folder is set to `inbox` after the best-effort remote block regardless
of its outcome; only a fully successful copy-store-expunge from the resolved
trash folder yields `status = "success"`. -/
def restore_email (st : LocalState) (u : Nat) (eid : Nat)
    (imapConfigured : Bool) (env : ImapEnv) : MutResult :=
  match findById st u eid with
  | none => ⟨st, "error", 404, []⟩
  | some email =>
    if email.folder != "trash" then ⟨st, "error", 400, []⟩
    else if !imapConfigured then ⟨setFolder st eid "inbox", "success", 200, []⟩
    else if !env.connectOk then ⟨setFolder st eid "inbox", "warning", 200, [.connect]⟩
    else
      let probe := probeFolders env trashFoldersMut
      let sel : List ImapCmd :=
        match probe.1 with
        | some tf => probe.2 ++ [.select tf]
        | none => probe.2 ++ [.select "INBOX"]
      let pre := ImapCmd.connect :: sel
      if !uidTruthy email.imap_uid then
        ⟨setFolder st eid "inbox", "warning", 200, pre⟩
      else
        let uidv := email.imap_uid.getD 0
        if env.copyRaises then
          ⟨setFolder st eid "inbox", "warning", 200, pre ++ [.copy uidv "INBOX"]⟩
        else if env.storeRaises then
          ⟨setFolder st eid "inbox", "warning", 200,
            pre ++ [.copy uidv "INBOX", .storeDeleted uidv]⟩
        else if env.expungeRaises then
          ⟨setFolder st eid "inbox", "warning", 200,
            pre ++ [.copy uidv "INBOX", .storeDeleted uidv, .expunge]⟩
        else
          ⟨setFolder st eid "inbox", "success", 200,
            pre ++ [.copy uidv "INBOX", .storeDeleted uidv, .expunge]⟩

/-- The archive endpoint `archive_email` (lines 1470-1602).  The local folder
is set to `archive` after the best-effort remote block regardless of its
outcome.  Remotely: probe the archive candidates and copy-store-expunge from
the source folder; with no archive candidate accepted, a Gmail host degrades
to flag-and-expunge in INBOX (still reported as success when it works), any
other host does nothing remotely and reports a warning. -/
def archive_email (st : LocalState) (u : Nat) (eid : Nat)
    (imapConfigured : Bool) (gmailHost : Bool) (env : ImapEnv) : MutResult :=
  match findById st u eid with
  | none => ⟨st, "error", 404, []⟩
  | some email =>
    if !imapConfigured then ⟨setFolder st eid "archive", "success", 200, []⟩
    else if !env.connectOk then ⟨setFolder st eid "archive", "warning", 200, [.connect]⟩
    else
      let sel := selectCurrentFolder env email.folder
      let pre := ImapCmd.connect :: sel.2
      if !uidTruthy email.imap_uid then
        ⟨setFolder st eid "archive", "warning", 200, pre⟩
      else
        let uidv := email.imap_uid.getD 0
        let probe := probeFolders env archiveFoldersMut
        match probe.1 with
        | some af =>
          let pre2 := pre ++ probe.2 ++ [.select sel.1]
          if env.copyRaises then
            ⟨setFolder st eid "archive", "warning", 200, pre2 ++ [.copy uidv af]⟩
          else if env.storeRaises then
            ⟨setFolder st eid "archive", "warning", 200,
              pre2 ++ [.copy uidv af, .storeDeleted uidv]⟩
          else if env.expungeRaises then
            ⟨setFolder st eid "archive", "warning", 200,
              pre2 ++ [.copy uidv af, .storeDeleted uidv, .expunge]⟩
          else
            ⟨setFolder st eid "archive", "success", 200,
              pre2 ++ [.copy uidv af, .storeDeleted uidv, .expunge]⟩
        | none =>
          if gmailHost then
            if env.storeRaises then
              ⟨setFolder st eid "archive", "warning", 200,
                pre ++ probe.2 ++ [.select "INBOX", .storeDeleted uidv]⟩
            else if env.expungeRaises then
              ⟨setFolder st eid "archive", "warning", 200,
                pre ++ probe.2 ++ [.select "INBOX", .storeDeleted uidv, .expunge]⟩
            else
              ⟨setFolder st eid "archive", "success", 200,
                pre ++ probe.2 ++ [.select "INBOX", .storeDeleted uidv, .expunge]⟩
          else
            ⟨setFolder st eid "archive", "warning", 200, pre ++ probe.2⟩

/-- `Email.query.filter(Email.id.in_(email_ids), Email.user_id == user.id)`:
the selected rows, in table order. -/
def bulkSelected (st : LocalState) (u : Nat) (emailIds : List Nat) : List EmailRecord :=
  st.records.filter (fun r => emailIds.contains r.id && r.user_id == u)

/-- `trash_folders` of the bulk remote loop (three candidates). -/
def bulkTrashFolders : List String := ["[Gmail]/Trash", "Trash", "Deleted Items"]

/-- `archive_folders` of the bulk remote loop (three candidates). -/
def bulkArchiveFolders : List String := ["[Gmail]/All Mail", "Archive", "INBOX.Archive"]

/-- The bulk move-probing loop (`bulk_email_action` lines 1692-1704 and
1710-1722): for each candidate, select it, select the source folder again,
copy, flag, expunge; the first candidate whose whole block does not raise
wins, a raise moves on to the next candidate.  Returns the commands
attempted and whether some candidate fully succeeded. -/
def bulkMoveProbe (env : ImapEnv) (uid : Nat) (goBack : String) :
    List String → List ImapCmd × Bool
  | [] => ([], false)
  | tf :: rest =>
    if env.copyRaises then
      let r := bulkMoveProbe env uid goBack rest
      ([.select tf, .select goBack, .copy uid tf] ++ r.1, r.2)
    else if env.storeRaises then
      let r := bulkMoveProbe env uid goBack rest
      ([.select tf, .select goBack, .copy uid tf, .storeDeleted uid] ++ r.1, r.2)
    else if env.expungeRaises then
      let r := bulkMoveProbe env uid goBack rest
      ([.select tf, .select goBack, .copy uid tf, .storeDeleted uid, .expunge] ++ r.1, r.2)
    else
      ([.select tf, .select goBack, .copy uid tf, .storeDeleted uid, .expunge], true)

/-- One queued remote operation of the bulk endpoint:
`(operation, uid, source_folder)`. -/
abbrev BulkOp := String × Nat × String

/-- One iteration of the bulk remote loop (lines 1668-1746): select the
mapped source folder, run the operation's branch, count it successful when
no command raised (an unmatched operation name still counts).  Returns the
commands attempted and the success flag. -/
def bulkRemoteOp (env : ImapEnv) (gmailHost : Bool) (op : BulkOp) :
    List ImapCmd × Bool :=
  let operation := op.1
  let uid := op.2.1
  let src := op.2.2
  let f := folderMappingMut src
  let selT : List ImapCmd := [.select f]
  if operation = "delete" then
    if src = "trash" then
      if env.storeRaises then (selT ++ [.storeDeleted uid], false)
      else if env.expungeRaises then (selT ++ [.storeDeleted uid, .expunge], false)
      else (selT ++ [.storeDeleted uid, .expunge], true)
    else
      let pr := bulkMoveProbe env uid f bulkTrashFolders
      if pr.2 then (selT ++ pr.1, true)
      else if env.storeRaises then (selT ++ pr.1 ++ [.storeDeleted uid], false)
      else (selT ++ pr.1 ++ [.storeDeleted uid], true)
  else if operation = "archive" then
    let pr := bulkMoveProbe env uid f bulkArchiveFolders
    if pr.2 then (selT ++ pr.1, true)
    else if gmailHost then
      if env.storeRaises then
        (selT ++ pr.1 ++ [.select "INBOX", .storeDeleted uid], false)
      else if env.expungeRaises then
        (selT ++ pr.1 ++ [.select "INBOX", .storeDeleted uid, .expunge], false)
      else (selT ++ pr.1 ++ [.select "INBOX", .storeDeleted uid, .expunge], true)
    else (selT ++ pr.1, true)
  else if operation = "restore" then
    if env.copyRaises then (selT ++ [.copy uid "INBOX"], false)
    else if env.storeRaises then (selT ++ [.copy uid "INBOX", .storeDeleted uid], false)
    else if env.expungeRaises then
      (selT ++ [.copy uid "INBOX", .storeDeleted uid, .expunge], false)
    else (selT ++ [.copy uid "INBOX", .storeDeleted uid, .expunge], true)
  else (selT, true)

/-- The local phase of the bulk endpoint for one selected row (lines
1636-1658).  For `delete` on a row not yet in `trash`, the source assigns
`email.folder = 'trash'` before reading `email.folder` into the queued
operation, so the recorded source folder is the string `trash`, not the
row's previous folder. -/
def bulkLocalStep (avail : Bool) (action : String)
    (acc : LocalState × Nat × List BulkOp) (e : EmailRecord) :
    LocalState × Nat × List BulkOp :=
  let st := acc.1
  let cnt := acc.2.1
  let ops := acc.2.2
  if action = "delete" then
    if e.folder == "trash" then (removeRecord st e.id, cnt + 1, ops)
    else
      let ops' := if avail && uidTruthy e.imap_uid then
          ops ++ [("delete", e.imap_uid.getD 0, "trash")] else ops
      (setFolder st e.id "trash", cnt + 1, ops')
  else if action = "archive" then
    let ops' := if avail && uidTruthy e.imap_uid then
        ops ++ [("archive", e.imap_uid.getD 0, e.folder)] else ops
    (setFolder st e.id "archive", cnt + 1, ops')
  else if action = "restore" then
    if e.folder == "trash" then
      let ops' := if avail && uidTruthy e.imap_uid then
          ops ++ [("restore", e.imap_uid.getD 0, e.folder)] else ops
      (setFolder st e.id "inbox", cnt + 1, ops')
    else acc
  else acc

/-- The bulk remote loop (lines 1662-1748): run every queued operation on the
one shared connection, accumulating the attempted commands and the count of
operations whose commands all succeeded. -/
def bulkRemoteFold (env : ImapEnv) (gh : Bool) (ops : List BulkOp) : List ImapCmd × Nat :=
  ops.foldl
    (fun acc op =>
      let r := bulkRemoteOp env gh op
      (acc.1 ++ r.1, acc.2 + (if r.2 then 1 else 0)))
    (([] : List ImapCmd), 0)

/-- Result of the bulk endpoint: the committed local store, the JSON status,
the HTTP code, `local_success` count, the queued remote operations, and the
remote commands attempted. -/
structure BulkResult where
  st : LocalState
  status : String
  code : Nat
  localSuccess : Nat
  ops : List BulkOp
  trace : List ImapCmd
deriving Repr

/-- The bulk endpoint `bulk_email_action` (lines 1605-1780): validate, select
the rows, run the local phase over them, then — when IMAP is available and
operations were queued — connect once and run each queued operation,
counting remote successes; the single commit happens either way.  The status
is `success` exactly when every queued operation succeeded remotely (or none
was queued). -/
def bulk_email_action (st : LocalState) (u : Nat) (emailIds : List Nat)
    (action : String) (avail : Bool) (gmailHost : Bool) (env : ImapEnv) : BulkResult :=
  if emailIds.isEmpty || action = "" then ⟨st, "error", 400, 0, [], []⟩
  else
    let selected := bulkSelected st u emailIds
    if selected.isEmpty then ⟨st, "error", 404, 0, [], []⟩
    else
      let res := selected.foldl (bulkLocalStep avail action) (st, 0, [])
      let st' := res.1
      let cnt := res.2.1
      let ops := res.2.2
      if avail && !ops.isEmpty then
        if env.connectOk then
          let rr := bulkRemoteFold env gmailHost ops
          let status := if rr.2 = ops.length then "success" else "warning"
          ⟨st', status, 200, cnt, ops, .connect :: rr.1⟩
        else
          let status := if 0 = ops.length then "success" else "warning"
          ⟨st', status, 200, cnt, ops, [.connect]⟩
      else ⟨st', "success", 200, cnt, ops, []⟩

/-! ## Derived predicates and concrete fixtures -/

/-- No record for (user, uid) is present in the store. -/
def uidFree (st : LocalState) (u uid : Nat) : Prop :=
  ∀ x ∈ st.records, ¬(x.user_id = u ∧ x.imap_uid = some uid)

/-- No record with this header is present for the user. -/
def hdrFree (st : LocalState) (u : Nat) (hdr : Option String) : Prop :=
  ∀ x ∈ st.records, ¬(x.user_id = u ∧ x.message_id_header = hdr)

/-- The step does not insert this UID in this state. -/
def noIns (u : Nat) (f : String) (fetch : Nat → FetchResult) (st : LocalState) (uid : Nat) : Prop :=
  (processUid u f fetch st uid).2.isInserted = false

/-- Two rows may share a truthy `message_id_header` only across different
accounts.  Stated pairwise over the row list. -/
def msgIdOk (r1 r2 : EmailRecord) : Prop :=
  r1.user_id = r2.user_id → pyTruthy r1.message_id_header = true →
    r1.message_id_header ≠ r2.message_id_header

/-- Per-account uniqueness of truthy message-id headers. -/
def msgIdUnique (st : LocalState) : Prop :=
  st.records.Pairwise msgIdOk

instance (r1 r2 : EmailRecord) : Decidable (msgIdOk r1 r2) := by
  unfold msgIdOk
  infer_instance

instance (st : LocalState) : Decidable (msgIdUnique st) := by
  unfold msgIdUnique
  infer_instance

def fetchPlain : String → Nat → FetchResult := fun _ _ => .ok ⟨""⟩

def srvC1 : ImapServer :=
  { connectOk := true, selectOk := fun f => f == "INBOX"
  , searchAll := fun f => if f == "INBOX" then [1, 2] else []
  , searchSince := fun _ _ => [], fetch := fetchPlain }

def srvC5 : ImapServer :=
  { connectOk := true, selectOk := fun f => f == "INBOX"
  , searchAll := fun f => if f == "INBOX" then [10, 11, 12] else []
  , searchSince := fun _ _ => [], fetch := fetchPlain }

def srvC4 : ImapServer :=
  { connectOk := true, selectOk := fun f => f == "INBOX"
  , searchAll := fun f => if f == "INBOX" then [4, 5, 6, 7] else []
  , searchSince := fun f n => if f == "INBOX" then [4, 5, 6, 7].filter (fun v => n ≤ v) else []
  , fetch := fetchPlain }

def srvNoSent : ImapServer :=
  { connectOk := true, selectOk := fun f => f == "INBOX"
  , searchAll := fun f => if f == "INBOX" then [5] else []
  , searchSince := fun _ _ => [], fetch := fetchPlain }

def srvSentOk : ImapServer :=
  { connectOk := true, selectOk := fun f => f == "Sent" || f == "INBOX"
  , searchAll := fun f => if f == "Sent" then [3] else []
  , searchSince := fun _ _ => [], fetch := fetchPlain }

def srvDup : ImapServer :=
  { connectOk := true, selectOk := fun f => f == "INBOX"
  , searchAll := fun f => if f == "INBOX" then [1, 2] else []
  , searchSince := fun _ _ => []
  , fetch := fun _ _ => .ok ⟨"<dup@example.com>"⟩ }

def stC4 : LocalState := ⟨[⟨0, 1, none, "inbox", some 5⟩], 1⟩

def stTrash : LocalState := ⟨[⟨0, 1, some "m1", "trash", some 5⟩], 1⟩

def stMut : LocalState :=
  ⟨[⟨1, 1, none, "inbox", some 4⟩, ⟨2, 1, none, "trash", some 7⟩], 3⟩

def stC7 : LocalState := ⟨[⟨1, 1, none, "trash", some 7⟩], 2⟩

def stBulk : LocalState :=
  ⟨[⟨1, 1, none, "trash", some 5⟩, ⟨2, 1, none, "inbox", some 9⟩], 3⟩

def envAllOk : ImapEnv := ⟨true, fun _ => true, false, false, false⟩

def envDown : ImapEnv := ⟨false, fun _ => false, true, true, true⟩

/-! ## Lemmas and claim theorems -/

/-! ## Lemmas about the shared ingest step -/

theorem processUid_cases (u : Nat) (f : String) (fetch : Nat → FetchResult)
    (st : LocalState) (uid : Nat) :
    ((processUid u f fetch st uid).1 = st ∧
      (processUid u f fetch st uid).2.isInserted = false) ∨
    (∃ r : EmailRecord,
      processUid u f fetch st uid =
        ({ records := st.records ++ [r], nextId := st.nextId + 1 }, .inserted r) ∧
      r.user_id = u ∧ r.folder = f ∧ r.imap_uid = some uid ∧ r.id = st.nextId ∧
      uidFree st u uid ∧
      (pyTruthy r.message_id_header = true → hdrFree st u r.message_id_header)) := by
  unfold processUid
  split
  · exact Or.inl ⟨rfl, rfl⟩
  · rename_i hfind
    split
    · exact Or.inl ⟨rfl, rfl⟩
    · exact Or.inl ⟨rfl, rfl⟩
    · exact Or.inl ⟨rfl, rfl⟩
    · rename_i m
      split
      · exact Or.inl ⟨rfl, rfl⟩
      · rename_i hmsg
        refine Or.inr ⟨_, rfl, rfl, rfl, rfl, rfl, ?_, ?_⟩
        · intro x hx hxx
          apply hfind
          rw [List.find?_isSome]
          exact ⟨x, hx, by simp [hxx.1, hxx.2]⟩
        · intro hpt x hx hxx
          apply hmsg
          simp only [Bool.and_eq_true]
          refine ⟨hpt, ?_⟩
          rw [List.find?_isSome]
          exact ⟨x, hx, by simp [mkRecord, hxx.1, hxx.2]⟩

theorem processUid_skips_existing (u : Nat) (f : String) (fetch : Nat → FetchResult)
    (st : LocalState) (uid : Nat)
    (h : ∃ x ∈ st.records, x.user_id = u ∧ x.imap_uid = some uid) :
    processUid u f fetch st uid = (st, .skippedExisting) := by
  have hs : (st.records.find? (fun r => r.user_id == u && r.imap_uid == some uid)).isSome = true := by
    rw [List.find?_isSome]
    obtain ⟨x, hx, h1, h2⟩ := h
    exact ⟨x, hx, by simp [h1, h2]⟩
  simp [processUid, hs]

theorem processUid_fst_of_not_inserted (u : Nat) (f : String) (fetch : Nat → FetchResult)
    (st : LocalState) (uid : Nat)
    (h : (processUid u f fetch st uid).2.isInserted = false) :
    (processUid u f fetch st uid).1 = st := by
  rcases processUid_cases u f fetch st uid with ⟨h1, _⟩ | ⟨r, hr, _⟩
  · exact h1
  · rw [hr] at h
    simp [IngestOutcome.isInserted] at h

theorem find?_isSome_append {p : EmailRecord → Bool} {l t : List EmailRecord}
    (h : (l.find? p).isSome = true) : ((l ++ t).find? p).isSome = true := by
  rw [List.find?_isSome] at *
  obtain ⟨x, hx, hp⟩ := h
  exact ⟨x, List.mem_append_left _ hx, hp⟩

theorem isInserted_exists {o : IngestOutcome} (h : o.isInserted = true) :
    ∃ r, o = .inserted r := by
  cases o <;> first | exact ⟨_, rfl⟩ | simp [IngestOutcome.isInserted] at h

/-- Inversion: an insertion can only have happened with a free UID, a parsed
message, and (when its header is truthy) a free header. -/
theorem processUid_inserted_inv (u : Nat) (f : String) (fetch : Nat → FetchResult)
    (st : LocalState) (uid : Nat) (r : EmailRecord)
    (h : (processUid u f fetch st uid).2 = .inserted r) :
    (st.records.find? (fun x => x.user_id == u && x.imap_uid == some uid)).isSome = false ∧
    ∃ m, fetch uid = .ok m ∧
      (pyTruthy (headerOf m) &&
        (st.records.find?
          (fun x => x.user_id == u && x.message_id_header == headerOf m)).isSome) = false ∧
      r = mkRecord st u f (headerOf m) uid := by
  unfold processUid at h
  split at h
  · simp at h
  · rename_i hfind
    split at h
    · simp at h
    · simp at h
    · simp at h
    · rename_i m hm
      split at h
      · simp at h
      · rename_i hmsg
        simp at h
        rw [Bool.not_eq_true] at hfind hmsg
        exact ⟨hfind, m, hm, hmsg, h.symm⟩

/-- Forward evaluation: with a free UID, a parsed message and a passing
header check, the step inserts. -/
theorem processUid_inserts (u : Nat) (f : String) (fetch : Nat → FetchResult)
    (st : LocalState) (uid : Nat) (m : RemoteMessage)
    (h1 : (st.records.find? (fun x => x.user_id == u && x.imap_uid == some uid)).isSome = false)
    (hf : fetch uid = .ok m)
    (h2 : (pyTruthy (headerOf m) &&
        (st.records.find?
          (fun x => x.user_id == u && x.message_id_header == headerOf m)).isSome) = false) :
    processUid u f fetch st uid =
      ({ records := st.records ++ [mkRecord st u f (headerOf m) uid],
         nextId := st.nextId + 1 },
       .inserted (mkRecord st u f (headerOf m) uid)) := by
  simp only [processUid, hf]
  rw [if_neg (by simp [h1]), if_neg (by simp [h2])]

/-- A UID that a state refuses to insert is still refused by any extension of
that state: the blocking record (or the deterministic fetch outcome) persists. -/
theorem noIns_mono (u : Nat) (f : String) (fetch : Nat → FetchResult)
    (st st' : LocalState) (uid : Nat) (t : List EmailRecord)
    (hext : st'.records = st.records ++ t)
    (h : noIns u f fetch st uid) : noIns u f fetch st' uid := by
  unfold noIns at h ⊢
  by_contra hc
  rw [Bool.not_eq_false] at hc
  obtain ⟨r', hr'⟩ := isInserted_exists hc
  obtain ⟨h1', m, hf, h2', _⟩ := processUid_inserted_inv u f fetch st' uid r' hr'
  have h1 : (st.records.find? (fun x => x.user_id == u && x.imap_uid == some uid)).isSome = false := by
    by_contra hx
    rw [Bool.not_eq_false] at hx
    have := find?_isSome_append (t := t) hx
    rw [← hext] at this
    rw [this] at h1'
    exact absurd h1' (by simp)
  have h2 : (pyTruthy (headerOf m) &&
      (st.records.find?
        (fun x => x.user_id == u && x.message_id_header == headerOf m)).isSome) = false := by
    by_contra hx
    rw [Bool.not_eq_false, Bool.and_eq_true] at hx
    have := find?_isSome_append (t := t) hx.2
    rw [← hext] at this
    rw [Bool.eq_false_iff] at h2'
    exact h2' (by rw [Bool.and_eq_true]; exact ⟨hx.1, this⟩)
  rw [processUid_inserts u f fetch st uid m h1 hf h2] at h
  simp [IngestOutcome.isInserted] at h

theorem uidFree_mono (st st' : LocalState) (u v : Nat) (t : List EmailRecord)
    (hext : st'.records = st.records ++ t) (h : uidFree st' u v) : uidFree st u v :=
  fun x hx => h x (by rw [hext]; exact List.mem_append_left _ hx)

theorem hdrFree_mono (st st' : LocalState) (u : Nat) (hdr : Option String) (t : List EmailRecord)
    (hext : st'.records = st.records ++ t) (h : hdrFree st' u hdr) : hdrFree st u hdr :=
  fun x hx => h x (by rw [hext]; exact List.mem_append_left _ hx)

theorem syncFold_cons (u : Nat) (f : String) (fetch : Nat → FetchResult)
    (uid : Nat) (rest : List Nat) (st : LocalState) (n : Nat) :
    syncFold u f fetch (uid :: rest) st n =
      syncFold u f fetch rest (processUid u f fetch st uid).1
        (if (processUid u f fetch st uid).2.isInserted then n + 1 else n) := rfl

/-- Every run of the breakless fold only appends rows, and each appended row
belongs to the syncing user and folder, carries a UID from the processed
list that was free in the starting state, and (when truthy) a header that
was free in the starting state. -/
theorem syncFold_extends (u : Nat) (f : String) (fetch : Nat → FetchResult) (l : List Nat) :
    ∀ (st : LocalState) (n : Nat),
    ∃ t, (syncFold u f fetch l st n).1.records = st.records ++ t ∧
      ∀ r ∈ t, r.user_id = u ∧ r.folder = f ∧
        (∃ v, r.imap_uid = some v ∧ v ∈ l ∧ uidFree st u v) ∧
        (pyTruthy r.message_id_header = true → hdrFree st u r.message_id_header) := by
  induction l with
  | nil => exact fun st n => ⟨[], by simp [syncFold], by simp⟩
  | cons uid rest ih =>
    intro st n
    rw [syncFold_cons]
    rcases processUid_cases u f fetch st uid with ⟨h1, h2⟩ | ⟨r, hr, hru, hrf, hruid, _, hfree, hhdr⟩
    · rw [h1, h2, if_neg (by simp)]
      obtain ⟨t, ht, hp⟩ := ih st n
      refine ⟨t, ht, fun r hrmem => ?_⟩
      obtain ⟨hu, hf2, ⟨v, hv, hvmem, hfree2⟩, hh⟩ := hp r hrmem
      exact ⟨hu, hf2, ⟨v, hv, List.mem_cons_of_mem _ hvmem, hfree2⟩, hh⟩
    · have hst1 : (processUid u f fetch st uid).1 =
          { records := st.records ++ [r], nextId := st.nextId + 1 } := by rw [hr]
      have hins : (processUid u f fetch st uid).2.isInserted = true := by
        rw [hr]; rfl
      rw [hst1, hins, if_pos rfl]
      obtain ⟨t, ht, hp⟩ :=
        ih { records := st.records ++ [r], nextId := st.nextId + 1 } (n + 1)
      refine ⟨r :: t, ?_, ?_⟩
      · rw [ht]; simp
      · intro r' hr'
        rcases List.mem_cons.mp hr' with rfl | hr'
        · exact ⟨hru, hrf, ⟨uid, hruid, List.mem_cons_self _ _, hfree⟩, hhdr⟩
        · obtain ⟨hu, hf2, ⟨v, hv, hvmem, hfree2⟩, hh⟩ := hp r' hr'
          refine ⟨hu, hf2, ⟨v, hv, List.mem_cons_of_mem _ hvmem, ?_⟩, ?_⟩
          · exact uidFree_mono st _ u v [r] rfl hfree2
          · intro hpt
            exact hdrFree_mono st _ u _ [r] rfl (hh hpt)

/-- When every UID of the list is refused, the fold is the identity. -/
theorem syncFold_fixed_of_noIns (u : Nat) (f : String) (fetch : Nat → FetchResult)
    (l : List Nat) : ∀ (st : LocalState) (n : Nat),
    (∀ uid ∈ l, noIns u f fetch st uid) → syncFold u f fetch l st n = (st, n) := by
  induction l with
  | nil => intro st n _; rfl
  | cons uid rest ih =>
    intro st n h
    have h0 : noIns u f fetch st uid := h uid (List.mem_cons_self _ _)
    rw [syncFold_cons, processUid_fst_of_not_inserted u f fetch st uid h0]
    have h0' : (processUid u f fetch st uid).2.isInserted = false := h0
    rw [h0', if_neg (by simp)]
    exact ih st n (fun uid' h' => h uid' (List.mem_cons_of_mem _ h'))

/-- After the fold has run over a list, every UID of that list is refused by
the resulting state. -/
theorem syncFold_covers (u : Nat) (f : String) (fetch : Nat → FetchResult)
    (l : List Nat) : ∀ (st : LocalState) (n : Nat),
    ∀ uid ∈ l, noIns u f fetch (syncFold u f fetch l st n).1 uid := by
  induction l with
  | nil => intro st n uid h; cases h
  | cons uid0 rest ih =>
    intro st n uid hmem
    rw [syncFold_cons]
    rcases List.mem_cons.mp hmem with rfl | hmem
    · rcases processUid_cases u f fetch st uid with ⟨h1, h2⟩ | ⟨r, hr, hru, _, hruid, _, _, _⟩
      · obtain ⟨t, ht, _⟩ := syncFold_extends u f fetch rest (processUid u f fetch st uid).1 _
        refine noIns_mono u f fetch (processUid u f fetch st uid).1 _ uid t ht ?_
        rw [h1]
        exact h2
      · obtain ⟨t, ht, _⟩ := syncFold_extends u f fetch rest (processUid u f fetch st uid).1 _
        have hrmem : r ∈ (syncFold u f fetch rest (processUid u f fetch st uid).1
            (if (processUid u f fetch st uid).2.isInserted then n + 1 else n)).1.records := by
          rw [ht]
          apply List.mem_append_left
          rw [show (processUid u f fetch st uid).1 =
            ({ records := st.records ++ [r], nextId := st.nextId + 1 } : LocalState) from by rw [hr]]
          simp
        unfold noIns
        rw [processUid_skips_existing u f fetch _ uid ⟨r, hrmem, hru, hruid⟩]
        rfl
    · exact ih (processUid u f fetch st uid0).1 _ uid hmem

theorem pyTail_length_le (limit : Nat) (h : 0 < limit) (l : List α) :
    (pyTail limit l).length ≤ limit := by
  unfold pyTail
  rw [if_neg (by omega)]
  rw [List.length_drop]
  omega

theorem pyTail_subset (limit : Nat) (l : List α) : ∀ x ∈ pyTail limit l, x ∈ l := by
  unfold pyTail
  split
  · exact fun x hx => hx
  · exact fun x hx => List.mem_of_mem_drop hx

/-- With enough headroom in the limit, the break of the full-sync loop can
never fire before the list ends, so the loop is the breakless fold. -/
theorem syncLoop_eq_fold (u : Nat) (f : String) (fetch : Nat → FetchResult) (limit : Nat)
    (l : List Nat) : ∀ (st : LocalState) (fetched n : Nat),
    fetched + l.length ≤ limit →
    syncLoop u f fetch limit l st fetched n = syncFold u f fetch l st n := by
  induction l with
  | nil => intro st fetched n _; rfl
  | cons uid rest ih =>
    intro st fetched n h
    rw [syncFold_cons]
    simp only [syncLoop]
    cases hout : (processUid u f fetch st uid).2 with
    | skippedExisting =>
      dsimp only
      rw [if_neg (show ¬IngestOutcome.skippedExisting.isInserted = true from by decide)]
      exact ih _ fetched n (by simp at h; omega)
    | fetchFailed =>
      dsimp only
      rw [if_neg (show ¬IngestOutcome.fetchFailed.isInserted = true from by decide)]
      exact ih _ fetched n (by simp at h; omega)
    | parseFailed =>
      dsimp only
      rw [if_neg (show ¬IngestOutcome.parseFailed.isInserted = true from by decide)]
      exact ih _ fetched n (by simp at h; omega)
    | skippedMsgId =>
      dsimp only
      rw [if_neg (show ¬IngestOutcome.skippedMsgId.isInserted = true from by decide)]
      exact ih _ fetched n (by simp at h; omega)
    | notTuple =>
      dsimp only
      rw [if_neg (show ¬IngestOutcome.notTuple.isInserted = true from by decide)]
      by_cases hb : fetched + 1 ≥ limit
      · rw [if_pos hb]
        have hrest : rest = [] := by
          apply List.length_eq_zero.mp
          simp at h
          omega
        subst hrest
        rfl
      · rw [if_neg hb]
        exact ih _ (fetched + 1) n (by simp at h; omega)
    | inserted r =>
      dsimp only
      rw [if_pos (show (IngestOutcome.inserted r).isInserted = true from rfl)]
      by_cases hb : fetched + 1 ≥ limit
      · rw [if_pos hb]
        have hrest : rest = [] := by
          apply List.length_eq_zero.mp
          simp at h
          omega
        subst hrest
        rfl
      · rw [if_neg hb]
        exact ih _ (fetched + 1) (n + 1) (by simp at h; omega)

/-- The incremental loop is the breakless fold over the UIDs above the
cursor. -/
theorem syncNewLoop_eq_fold (u : Nat) (f : String) (fetch : Nat → FetchResult) (c : Nat)
    (l : List Nat) : ∀ (st : LocalState) (n : Nat),
    syncNewLoop u f fetch c l st n =
      syncFold u f fetch (l.filter (fun uid => decide (c < uid))) st n := by
  induction l with
  | nil => intro st n; rfl
  | cons uid rest ih =>
    intro st n
    by_cases hc : uid ≤ c
    · rw [List.filter_cons_of_neg (by simp; omega)]
      simp only [syncNewLoop, if_pos hc]
      exact ih st n
    · rw [List.filter_cons_of_pos (by simp; omega), syncFold_cons]
      simp only [syncNewLoop, if_neg hc]
      cases hout : (processUid u f fetch st uid).2 with
      | skippedExisting =>
        dsimp only
        rw [if_neg (show ¬IngestOutcome.skippedExisting.isInserted = true from by decide)]
        exact ih _ n
      | fetchFailed =>
        dsimp only
        rw [if_neg (show ¬IngestOutcome.fetchFailed.isInserted = true from by decide)]
        exact ih _ n
      | parseFailed =>
        dsimp only
        rw [if_neg (show ¬IngestOutcome.parseFailed.isInserted = true from by decide)]
        exact ih _ n
      | skippedMsgId =>
        dsimp only
        rw [if_neg (show ¬IngestOutcome.skippedMsgId.isInserted = true from by decide)]
        exact ih _ n
      | notTuple =>
        dsimp only
        rw [if_neg (show ¬IngestOutcome.notTuple.isInserted = true from by decide)]
        exact ih _ n
      | inserted r =>
        dsimp only
        rw [if_pos (show (IngestOutcome.inserted r).isInserted = true from rfl)]
        exact ih _ (n + 1)

/-- Whatever the limit, a run of the full-sync loop is a run of the breakless
fold over some prefix of the list (the break only truncates the list). -/
theorem syncLoop_eq_fold_take (u : Nat) (f : String) (fetch : Nat → FetchResult) (limit : Nat)
    (l : List Nat) : ∀ (st : LocalState) (fetched n : Nat),
    ∃ k, syncLoop u f fetch limit l st fetched n = syncFold u f fetch (l.take k) st n := by
  induction l with
  | nil => exact fun st fetched n => ⟨0, rfl⟩
  | cons uid rest ih =>
    intro st fetched n
    simp only [syncLoop]
    cases hout : (processUid u f fetch st uid).2 with
    | skippedExisting =>
      dsimp only
      obtain ⟨k, hk⟩ := ih (processUid u f fetch st uid).1 fetched n
      refine ⟨k + 1, ?_⟩
      rw [List.take_succ_cons, syncFold_cons, hout]
      rw [if_neg (show ¬IngestOutcome.skippedExisting.isInserted = true from by decide)]
      exact hk
    | fetchFailed =>
      dsimp only
      obtain ⟨k, hk⟩ := ih (processUid u f fetch st uid).1 fetched n
      refine ⟨k + 1, ?_⟩
      rw [List.take_succ_cons, syncFold_cons, hout]
      rw [if_neg (show ¬IngestOutcome.fetchFailed.isInserted = true from by decide)]
      exact hk
    | parseFailed =>
      dsimp only
      obtain ⟨k, hk⟩ := ih (processUid u f fetch st uid).1 fetched n
      refine ⟨k + 1, ?_⟩
      rw [List.take_succ_cons, syncFold_cons, hout]
      rw [if_neg (show ¬IngestOutcome.parseFailed.isInserted = true from by decide)]
      exact hk
    | skippedMsgId =>
      dsimp only
      obtain ⟨k, hk⟩ := ih (processUid u f fetch st uid).1 fetched n
      refine ⟨k + 1, ?_⟩
      rw [List.take_succ_cons, syncFold_cons, hout]
      rw [if_neg (show ¬IngestOutcome.skippedMsgId.isInserted = true from by decide)]
      exact hk
    | notTuple =>
      dsimp only
      by_cases hb : fetched + 1 ≥ limit
      · rw [if_pos hb]
        refine ⟨1, ?_⟩
        rw [List.take_succ_cons, List.take_zero, syncFold_cons, hout]
        rw [if_neg (show ¬IngestOutcome.notTuple.isInserted = true from by decide)]
        rfl
      · rw [if_neg hb]
        obtain ⟨k, hk⟩ := ih (processUid u f fetch st uid).1 (fetched + 1) n
        refine ⟨k + 1, ?_⟩
        rw [List.take_succ_cons, syncFold_cons, hout]
        rw [if_neg (show ¬IngestOutcome.notTuple.isInserted = true from by decide)]
        exact hk
    | inserted r =>
      dsimp only
      by_cases hb : fetched + 1 ≥ limit
      · rw [if_pos hb]
        refine ⟨1, ?_⟩
        rw [List.take_succ_cons, List.take_zero, syncFold_cons, hout]
        rw [if_pos (show (IngestOutcome.inserted r).isInserted = true from rfl)]
        rfl
      · rw [if_neg hb]
        obtain ⟨k, hk⟩ := ih (processUid u f fetch st uid).1 (fetched + 1) (n + 1)
        refine ⟨k + 1, ?_⟩
        rw [List.take_succ_cons, syncFold_cons, hout]
        rw [if_pos (show (IngestOutcome.inserted r).isInserted = true from rfl)]
        exact hk

/-- Extension property of the full-sync loop, for every limit. -/
theorem syncLoop_extends (u : Nat) (f : String) (fetch : Nat → FetchResult) (limit : Nat)
    (l : List Nat) (st : LocalState) (fetched n : Nat) :
    ∃ t, (syncLoop u f fetch limit l st fetched n).1.records = st.records ++ t ∧
      ∀ r ∈ t, r.user_id = u ∧ r.folder = f ∧
        (∃ v, r.imap_uid = some v ∧ v ∈ l ∧ uidFree st u v) ∧
        (pyTruthy r.message_id_header = true → hdrFree st u r.message_id_header) := by
  obtain ⟨k, hk⟩ := syncLoop_eq_fold_take u f fetch limit l st fetched n
  rw [hk]
  obtain ⟨t, ht, hp⟩ := syncFold_extends u f fetch (l.take k) st n
  refine ⟨t, ht, fun r hrmem => ?_⟩
  obtain ⟨hu, hf2, ⟨v, hv, hvmem, hfree2⟩, hh⟩ := hp r hrmem
  exact ⟨hu, hf2, ⟨v, hv, List.take_subset _ _ hvmem, hfree2⟩, hh⟩

/-- Extension property of the incremental loop: appended rows additionally
carry a UID strictly above the cursor. -/
theorem syncNewLoop_extends (u : Nat) (f : String) (fetch : Nat → FetchResult) (c : Nat)
    (l : List Nat) (st : LocalState) (n : Nat) :
    ∃ t, (syncNewLoop u f fetch c l st n).1.records = st.records ++ t ∧
      ∀ r ∈ t, r.user_id = u ∧ r.folder = f ∧
        (∃ v, r.imap_uid = some v ∧ v ∈ l ∧ c < v ∧ uidFree st u v) ∧
        (pyTruthy r.message_id_header = true → hdrFree st u r.message_id_header) := by
  rw [syncNewLoop_eq_fold]
  obtain ⟨t, ht, hp⟩ := syncFold_extends u f fetch (l.filter (fun uid => decide (c < uid))) st n
  refine ⟨t, ht, fun r hrmem => ?_⟩
  obtain ⟨hu, hf2, ⟨v, hv, hvmem, hfree2⟩, hh⟩ := hp r hrmem
  rw [List.mem_filter] at hvmem
  exact ⟨hu, hf2, ⟨v, hv, hvmem.1, by simpa using hvmem.2, hfree2⟩, hh⟩

/-- The full sync endpoint only appends rows; every appended row belongs to
the syncing user and requested folder, has a UID that was free in the
starting state, and (when truthy) a header that was free there. -/
theorem sync_emails_extends (u : Nat) (folder : String) (limit : Nat) (server : ImapServer)
    (st : LocalState) :
    ∃ t, (sync_emails u folder limit server st).1.records = st.records ++ t ∧
      ∀ r ∈ t, r.user_id = u ∧ r.folder = folder ∧
        (∃ v, r.imap_uid = some v ∧ uidFree st u v) ∧
        (pyTruthy r.message_id_header = true → hdrFree st u r.message_id_header) := by
  unfold sync_emails
  split
  · exact ⟨[], by simp, by simp⟩
  · split
    · split
      · exact ⟨[], by simp, by simp⟩
      · rename_i f _
        dsimp only
        obtain ⟨t, ht, hp⟩ := syncLoop_extends u folder (server.fetch f) limit
          ((pyTail limit (server.searchAll f)).reverse) st 0 0
        refine ⟨t, ht, fun r hr => ?_⟩
        obtain ⟨hu, hf2, ⟨v, hv, _, hfree2⟩, hh⟩ := hp r hr
        exact ⟨hu, hf2, ⟨v, hv, hfree2⟩, hh⟩
    · dsimp only
      obtain ⟨t, ht, hp⟩ := syncLoop_extends u folder
        (server.fetch (if server.selectOk (folderMappingSync folder)
          then folderMappingSync folder else "INBOX")) limit
        ((pyTail limit (server.searchAll (if server.selectOk (folderMappingSync folder)
          then folderMappingSync folder else "INBOX"))).reverse) st 0 0
      refine ⟨t, ht, fun r hr => ?_⟩
      obtain ⟨hu, hf2, ⟨v, hv, _, hfree2⟩, hh⟩ := hp r hr
      exact ⟨hu, hf2, ⟨v, hv, hfree2⟩, hh⟩

/-- The incremental sync endpoint only appends rows; every appended row
belongs to the syncing user and folder, has a free UID strictly above the
cursor (when the cursor was computed), and a free truthy header. -/
theorem sync_new_emails_extends (u : Nat) (folder : String) (server : ImapServer)
    (st : LocalState) :
    ∃ t, (sync_new_emails u folder server st).1.records = st.records ++ t ∧
      ∀ r ∈ t, r.user_id = u ∧ r.folder = folder ∧
        (∃ v, r.imap_uid = some v ∧ uidFree st u v ∧
          ∀ C, lastUidQ st u folder = some C → C < v) ∧
        (pyTruthy r.message_id_header = true → hdrFree st u r.message_id_header) := by
  unfold sync_new_emails
  split
  · exact ⟨[], by simp, by simp⟩
  · dsimp only
    split
    · split
      · exact ⟨[], by simp, by simp⟩
      · rename_i f _
        split
        · exact ⟨[], by simp, by simp⟩
        · rename_i lastUid hC
          dsimp only
          obtain ⟨t, ht, hp⟩ := syncNewLoop_extends u folder (server.fetch f) lastUid
            ((pyTail 20 (if lastUid > 0 then server.searchSince f (lastUid + 1)
              else server.searchAll f)).reverse) st 0
          refine ⟨t, ht, fun r hr => ?_⟩
          obtain ⟨hu, hf2, ⟨v, hv, _, hcv, hfree2⟩, hh⟩ := hp r hr
          refine ⟨hu, hf2, ⟨v, hv, hfree2, fun C hC' => ?_⟩, hh⟩
          rw [hC] at hC'
          cases hC'
          exact hcv
    · split
      · exact ⟨[], by simp, by simp⟩
      · rename_i lastUid hC
        dsimp only
        obtain ⟨t, ht, hp⟩ := syncNewLoop_extends u folder
          (server.fetch (if server.selectOk (folderMappingSync folder)
            then folderMappingSync folder else "INBOX")) lastUid
          ((pyTail 20 (if lastUid > 0
            then server.searchSince (if server.selectOk (folderMappingSync folder)
              then folderMappingSync folder else "INBOX") (lastUid + 1)
            else server.searchAll (if server.selectOk (folderMappingSync folder)
              then folderMappingSync folder else "INBOX"))).reverse) st 0
        refine ⟨t, ht, fun r hr => ?_⟩
        obtain ⟨hu, hf2, ⟨v, hv, _, hcv, hfree2⟩, hh⟩ := hp r hr
        refine ⟨hu, hf2, ⟨v, hv, hfree2, fun C hC' => ?_⟩, hh⟩
        rw [hC] at hC'
        cases hC'
        exact hcv

/-- Rerunning the full-sync loop over the same list from its own result
state changes nothing and inserts nothing, provided the limit covers the
list (so the first run processed every element). -/
theorem syncLoop_rerun (u : Nat) (f : String) (fetch : Nat → FetchResult) (limit : Nat)
    (l : List Nat) (st : LocalState) (hlen : l.length ≤ limit) :
    syncLoop u f fetch limit l (syncLoop u f fetch limit l st 0 0).1 0 0 =
      ((syncLoop u f fetch limit l st 0 0).1, 0) := by
  rw [syncLoop_eq_fold u f fetch limit l st 0 0 (by omega)]
  rw [syncLoop_eq_fold u f fetch limit l (syncFold u f fetch l st 0).1 0 0 (by omega)]
  exact syncFold_fixed_of_noIns u f fetch l (syncFold u f fetch l st 0).1 0
    (fun uid hmem => syncFold_covers u f fetch l st 0 uid hmem)

/-- C1 (amended): with a positive limit, rerunning the full sync against the
same remote state changes no local state and stores zero new messages. -/
theorem sync_emails_rerun_idempotent (u : Nat) (folder : String) (limit : Nat)
    (server : ImapServer) (st : LocalState) (hlim : 0 < limit) :
    (sync_emails u folder limit server (sync_emails u folder limit server st).1).1 =
      (sync_emails u folder limit server st).1 ∧
    (sync_emails u folder limit server (sync_emails u folder limit server st).1).2.2 = 0 := by
  by_cases hconn : server.connectOk = true
  · by_cases hsent : folder = "sent"
    · cases hres : resolveSentSync server with
      | none =>
        have h1 : ∀ s, sync_emails u folder limit server s =
            (s, .warning "No sent folder found. Please check your email provider settings.", 0) := by
          intro s
          unfold sync_emails
          rw [if_neg (by simp [hconn]), if_pos hsent, hres]
        rw [h1, h1]
        exact ⟨rfl, rfl⟩
      | some f =>
        have h1 : ∀ s, sync_emails u folder limit server s =
            ((syncLoop u folder (server.fetch f) limit
                ((pyTail limit (server.searchAll f)).reverse) s 0 0).1, .success,
             (syncLoop u folder (server.fetch f) limit
                ((pyTail limit (server.searchAll f)).reverse) s 0 0).2) := by
          intro s
          unfold sync_emails
          rw [if_neg (by simp [hconn]), if_pos hsent, hres]
        rw [h1, h1]
        have hlen : ((pyTail limit (server.searchAll f)).reverse).length ≤ limit := by
          rw [List.length_reverse]
          exact pyTail_length_le limit hlim _
        have := syncLoop_rerun u folder (server.fetch f) limit
          ((pyTail limit (server.searchAll f)).reverse) st hlen
        rw [this]
        exact ⟨rfl, rfl⟩
    · have h1 : ∀ s, sync_emails u folder limit server s =
          ((syncLoop u folder
              (server.fetch (if server.selectOk (folderMappingSync folder)
                then folderMappingSync folder else "INBOX")) limit
              ((pyTail limit (server.searchAll
                (if server.selectOk (folderMappingSync folder)
                  then folderMappingSync folder else "INBOX"))).reverse) s 0 0).1, .success,
           (syncLoop u folder
              (server.fetch (if server.selectOk (folderMappingSync folder)
                then folderMappingSync folder else "INBOX")) limit
              ((pyTail limit (server.searchAll
                (if server.selectOk (folderMappingSync folder)
                  then folderMappingSync folder else "INBOX"))).reverse) s 0 0).2) := by
        intro s
        unfold sync_emails
        rw [if_neg (by simp [hconn]), if_neg hsent]
      rw [h1, h1]
      have hlen : ((pyTail limit (server.searchAll
          (if server.selectOk (folderMappingSync folder)
            then folderMappingSync folder else "INBOX"))).reverse).length ≤ limit := by
        rw [List.length_reverse]
        exact pyTail_length_le limit hlim _
      have := syncLoop_rerun u folder
        (server.fetch (if server.selectOk (folderMappingSync folder)
          then folderMappingSync folder else "INBOX")) limit
        ((pyTail limit (server.searchAll
          (if server.selectOk (folderMappingSync folder)
            then folderMappingSync folder else "INBOX"))).reverse) st hlen
      rw [this]
      exact ⟨rfl, rfl⟩
  · have h1 : ∀ s, sync_emails u folder limit server s =
        (s, .error "IMAP operation failed", 0) := by
      intro s
      unfold sync_emails
      rw [if_pos (by simp [hconn])]
    rw [h1, h1]
    exact ⟨rfl, rfl⟩

theorem processUid_preserves_msgIdUnique (u : Nat) (f : String) (fetch : Nat → FetchResult)
    (st : LocalState) (uid : Nat) (h : msgIdUnique st) :
    msgIdUnique (processUid u f fetch st uid).1 := by
  rcases processUid_cases u f fetch st uid with ⟨h1, _⟩ | ⟨r, hr, hru, _, _, _, _, hhdr⟩
  · rw [h1]; exact h
  · rw [show (processUid u f fetch st uid).1 =
      ({ records := st.records ++ [r], nextId := st.nextId + 1 } : LocalState) from by rw [hr]]
    unfold msgIdUnique at h ⊢
    rw [List.pairwise_append]
    refine ⟨h, List.pairwise_singleton _ _, ?_⟩
    intro a ha b hb
    rw [List.mem_singleton] at hb
    subst hb
    intro hab hpt heq
    rw [heq] at hpt
    exact hhdr hpt a ha ⟨by rw [hab, hru], heq⟩

theorem syncFold_preserves_msgIdUnique (u : Nat) (f : String) (fetch : Nat → FetchResult)
    (l : List Nat) : ∀ (st : LocalState) (n : Nat),
    msgIdUnique st → msgIdUnique (syncFold u f fetch l st n).1 := by
  induction l with
  | nil => exact fun st n h => h
  | cons uid rest ih =>
    intro st n h
    rw [syncFold_cons]
    exact ih _ _ (processUid_preserves_msgIdUnique u f fetch st uid h)

theorem syncLoop_preserves_msgIdUnique (u : Nat) (f : String) (fetch : Nat → FetchResult)
    (limit : Nat) (l : List Nat) (st : LocalState) (fetched n : Nat)
    (h : msgIdUnique st) : msgIdUnique (syncLoop u f fetch limit l st fetched n).1 := by
  obtain ⟨k, hk⟩ := syncLoop_eq_fold_take u f fetch limit l st fetched n
  rw [hk]
  exact syncFold_preserves_msgIdUnique u f fetch (l.take k) st n h

theorem syncNewLoop_preserves_msgIdUnique (u : Nat) (f : String) (fetch : Nat → FetchResult)
    (c : Nat) (l : List Nat) (st : LocalState) (n : Nat)
    (h : msgIdUnique st) : msgIdUnique (syncNewLoop u f fetch c l st n).1 := by
  rw [syncNewLoop_eq_fold]
  exact syncFold_preserves_msgIdUnique u f fetch _ st n h

theorem sync_emails_preserves_msgIdUnique (u : Nat) (folder : String) (limit : Nat)
    (server : ImapServer) (st : LocalState) (h : msgIdUnique st) :
    msgIdUnique (sync_emails u folder limit server st).1 := by
  unfold sync_emails
  split
  · exact h
  · split
    · split
      · exact h
      · exact syncLoop_preserves_msgIdUnique _ _ _ _ _ _ _ _ h
    · exact syncLoop_preserves_msgIdUnique _ _ _ _ _ _ _ _ h

theorem sync_new_emails_preserves_msgIdUnique (u : Nat) (folder : String)
    (server : ImapServer) (st : LocalState) (h : msgIdUnique st) :
    msgIdUnique (sync_new_emails u folder server st).1 := by
  unfold sync_new_emails
  split
  · exact h
  · dsimp only
    split
    · split
      · exact h
      · split
        · exact h
        · exact syncNewLoop_preserves_msgIdUnique _ _ _ _ _ _ _ h
    · split
      · exact h
      · exact syncNewLoop_preserves_msgIdUnique _ _ _ _ _ _ _ h

theorem lastUidQ_of_no_records (st : LocalState) (u : Nat) (folder : String)
    (h : ∀ r ∈ st.records, ¬(r.user_id = u ∧ r.folder = folder)) :
    lastUidQ st u folder = some 0 := by
  have hfil : (st.records.filter (fun r => r.user_id == u && r.folder == folder)) = [] := by
    rw [List.filter_eq_nil_iff]
    intro a ha
    simp only [Bool.and_eq_true, beq_iff_eq, not_and]
    intro h1 h2
    exact h a ha ⟨h1, h2⟩
  simp only [lastUidQ]
  rw [hfil]
  rfl

/-- C3: an existing trashed or archived record survives an inbox sync (full
or incremental) unchanged, and no freshly inserted row of that sync matches
it by (account, UID) or by (account, truthy header). -/
theorem inbox_sync_preserves_trashed (u limit : Nat) (server : ImapServer)
    (st : LocalState) (r : EmailRecord)
    (hr : r ∈ st.records) (hu : r.user_id = u)
    (hfold : r.folder = "trash" ∨ r.folder = "archive") :
    (r ∈ (sync_emails u "inbox" limit server st).1.records ∧
      ∀ r' ∈ (sync_emails u "inbox" limit server st).1.records, r' ∉ st.records →
        r'.user_id = u →
          r'.imap_uid ≠ r.imap_uid ∧
          (pyTruthy r.message_id_header = true →
            r'.message_id_header ≠ r.message_id_header)) ∧
    (r ∈ (sync_new_emails u "inbox" server st).1.records ∧
      ∀ r' ∈ (sync_new_emails u "inbox" server st).1.records, r' ∉ st.records →
        r'.user_id = u →
          r'.imap_uid ≠ r.imap_uid ∧
          (pyTruthy r.message_id_header = true →
            r'.message_id_header ≠ r.message_id_header)) := by
  obtain ⟨t, ht, hp⟩ := sync_emails_extends u "inbox" limit server st
  obtain ⟨t2, ht2, hp2⟩ := sync_new_emails_extends u "inbox" server st
  constructor
  · constructor
    · rw [ht]; exact List.mem_append_left _ hr
    · intro r' hr' hnot hu'
      have hmem : r' ∈ t := by
        rw [ht] at hr'
        rcases List.mem_append.mp hr' with hmem | hmem
        · exact absurd hmem hnot
        · exact hmem
      obtain ⟨_, _, ⟨v, hv, hfree⟩, hh⟩ := hp r' hmem
      constructor
      · intro heq
        exact hfree r hr ⟨hu, by rw [← heq]; exact hv⟩
      · intro hpt heq
        have hptr' : pyTruthy r'.message_id_header = true := by rw [heq]; exact hpt
        exact hh hptr' r hr ⟨hu, heq.symm⟩
  · constructor
    · rw [ht2]; exact List.mem_append_left _ hr
    · intro r' hr' hnot hu'
      have hmem : r' ∈ t2 := by
        rw [ht2] at hr'
        rcases List.mem_append.mp hr' with hmem | hmem
        · exact absurd hmem hnot
        · exact hmem
      obtain ⟨_, _, ⟨v, hv, hfree, _⟩, hh⟩ := hp2 r' hmem
      constructor
      · intro heq
        exact hfree r hr ⟨hu, by rw [← heq]; exact hv⟩
      · intro hpt heq
        have hptr' : pyTruthy r'.message_id_header = true := by rw [heq]; exact hpt
        exact hh hptr' r hr ⟨hu, heq.symm⟩

/-- C4: the incremental sync ingests only rows with UID strictly above the
computed cursor, and with no stored row for the (account, folder) it behaves
like a full sync bounded to the most recent 20 messages. -/
theorem sync_new_cursor_spec (u : Nat) (folder : String) (server : ImapServer)
    (st : LocalState) :
    (∀ C, lastUidQ st u folder = some C → 0 < C →
      ∀ r' ∈ (sync_new_emails u folder server st).1.records, r' ∉ st.records →
        ∃ v, r'.imap_uid = some v ∧ C < v) ∧
    ((∀ fname uid, uid ∈ server.searchAll fname → 0 < uid) →
     (∀ r ∈ st.records, ¬(r.user_id = u ∧ r.folder = folder)) →
      (sync_new_emails u folder server st).1 = (sync_emails u folder 20 server st).1 ∧
      (sync_new_emails u folder server st).2.2 = (sync_emails u folder 20 server st).2.2) := by
  constructor
  · intro C hC _ r' hr' hnot
    obtain ⟨t, ht, hp⟩ := sync_new_emails_extends u folder server st
    have hmem : r' ∈ t := by
      rw [ht] at hr'
      rcases List.mem_append.mp hr' with hmem | hmem
      · exact absurd hmem hnot
      · exact hmem
    obtain ⟨_, _, ⟨v, hv, _, hcv⟩, _⟩ := hp r' hmem
    exact ⟨v, hv, hcv C hC⟩
  · intro hpos hno
    have hq := lastUidQ_of_no_records st u folder hno
    by_cases hconn : server.connectOk = true
    · have hloops : ∀ (f : String),
          syncNewLoop u folder (server.fetch f) 0
              ((pyTail 20 (server.searchAll f)).reverse) st 0 =
            syncLoop u folder (server.fetch f) 20
              ((pyTail 20 (server.searchAll f)).reverse) st 0 0 := by
        intro f
        rw [syncNewLoop_eq_fold]
        rw [List.filter_eq_self.mpr]
        · rw [syncLoop_eq_fold u folder (server.fetch f) 20
            ((pyTail 20 (server.searchAll f)).reverse) st 0 0
            (by rw [Nat.zero_add, List.length_reverse]; exact pyTail_length_le 20 (by omega) _)]
        · intro a ha
          rw [List.mem_reverse] at ha
          have := pyTail_subset 20 _ a ha
          simp only [decide_eq_true_eq]
          exact hpos f a this
      by_cases hsent : folder = "sent"
      · cases hres : resolveSentSync server with
        | none =>
          have h1 : sync_new_emails u folder server st = (st, .warning "No sent folder found.", 0) := by
            unfold sync_new_emails
            rw [if_neg (by simp [hconn])]
            dsimp only
            rw [if_pos hsent, hres]
          have h2 : sync_emails u folder 20 server st =
              (st, .warning "No sent folder found. Please check your email provider settings.", 0) := by
            unfold sync_emails
            rw [if_neg (by simp [hconn]), if_pos hsent, hres]
          rw [h1, h2]
          exact ⟨rfl, rfl⟩
        | some f =>
          have h1 : sync_new_emails u folder server st =
              ((syncNewLoop u folder (server.fetch f) 0
                  ((pyTail 20 (server.searchAll f)).reverse) st 0).1, .success,
               (syncNewLoop u folder (server.fetch f) 0
                  ((pyTail 20 (server.searchAll f)).reverse) st 0).2) := by
            unfold sync_new_emails
            rw [if_neg (by simp [hconn])]
            dsimp only
            rw [if_pos hsent, hres, hq]
            dsimp only
            rw [if_neg (show ¬((0:Nat) > 0) by omega)]
          have h2 : sync_emails u folder 20 server st =
              ((syncLoop u folder (server.fetch f) 20
                  ((pyTail 20 (server.searchAll f)).reverse) st 0 0).1, .success,
               (syncLoop u folder (server.fetch f) 20
                  ((pyTail 20 (server.searchAll f)).reverse) st 0 0).2) := by
            unfold sync_emails
            rw [if_neg (by simp [hconn]), if_pos hsent, hres]
          rw [h1, h2, hloops f]
          exact ⟨rfl, rfl⟩
      · have h1 : sync_new_emails u folder server st =
            ((syncNewLoop u folder
                (server.fetch (if server.selectOk (folderMappingSync folder)
                  then folderMappingSync folder else "INBOX")) 0
                ((pyTail 20 (server.searchAll
                  (if server.selectOk (folderMappingSync folder)
                    then folderMappingSync folder else "INBOX"))).reverse) st 0).1, .success,
             (syncNewLoop u folder
                (server.fetch (if server.selectOk (folderMappingSync folder)
                  then folderMappingSync folder else "INBOX")) 0
                ((pyTail 20 (server.searchAll
                  (if server.selectOk (folderMappingSync folder)
                    then folderMappingSync folder else "INBOX"))).reverse) st 0).2) := by
          unfold sync_new_emails
          rw [if_neg (by simp [hconn])]
          dsimp only
          rw [if_neg hsent, hq]
          dsimp only
          rw [if_neg (show ¬((0:Nat) > 0) by omega)]
        have h2 : sync_emails u folder 20 server st =
            ((syncLoop u folder
                (server.fetch (if server.selectOk (folderMappingSync folder)
                  then folderMappingSync folder else "INBOX")) 20
                ((pyTail 20 (server.searchAll
                  (if server.selectOk (folderMappingSync folder)
                    then folderMappingSync folder else "INBOX"))).reverse) st 0 0).1, .success,
             (syncLoop u folder
                (server.fetch (if server.selectOk (folderMappingSync folder)
                  then folderMappingSync folder else "INBOX")) 20
                ((pyTail 20 (server.searchAll
                  (if server.selectOk (folderMappingSync folder)
                    then folderMappingSync folder else "INBOX"))).reverse) st 0 0).2) := by
          unfold sync_emails
          rw [if_neg (by simp [hconn]), if_neg hsent]
        rw [h1, h2, hloops _]
        exact ⟨rfl, rfl⟩
    · have h1 : sync_new_emails u folder server st = (st, .error "Incremental sync failed", 0) := by
        unfold sync_new_emails
        rw [if_pos (by simp [hconn])]
      have h2 : sync_emails u folder 20 server st = (st, .error "IMAP operation failed", 0) := by
        unfold sync_emails
        rw [if_pos (by simp [hconn])]
      rw [h1, h2]
      exact ⟨rfl, rfl⟩

theorem find?_eq_some_split {α : Type _} (p : α → Bool) (l : List α) (a : α)
    (h : l.find? p = some a) :
    p a = true ∧ ∃ l1 l2, l = l1 ++ a :: l2 ∧ ∀ x ∈ l1, p x = false := by
  induction l with
  | nil => cases h
  | cons b rest ih =>
    rw [List.find?_cons] at h
    cases hb : p b with
    | true =>
      rw [hb] at h
      simp only at h
      cases h
      exact ⟨hb, [], rest, rfl, by simp⟩
    | false =>
      rw [hb] at h
      simp only at h
      obtain ⟨hp, l1, l2, heq, hall⟩ := ih h
      refine ⟨hp, b :: l1, l2, by rw [heq]; rfl, ?_⟩
      intro x hx
      rcases List.mem_cons.mp hx with rfl | hx
      · exact hb
      · exact hall x hx

/-- C8 (amended): the sent sync probes the candidate list in order and runs
the message loop against the first accepted candidate; when every probe
fails it selects INBOX, logs out and returns a warning with zero messages
synced, abandoning the sent sync instead of syncing the fallback folder. -/
theorem sent_sync_resolution (u limit : Nat) (server : ImapServer) (st : LocalState)
    (hc : server.connectOk = true) :
    (∀ f, resolveSentSync server = some f →
      server.selectOk f = true ∧
      (∃ l1 l2, possibleSentFoldersSync = l1 ++ f :: l2 ∧
        ∀ g ∈ l1, server.selectOk g = false) ∧
      sync_emails u "sent" limit server st =
        ((syncLoop u "sent" (server.fetch f) limit
            ((pyTail limit (server.searchAll f)).reverse) st 0 0).1, .success,
         (syncLoop u "sent" (server.fetch f) limit
            ((pyTail limit (server.searchAll f)).reverse) st 0 0).2)) ∧
    (resolveSentSync server = none →
      sync_emails u "sent" limit server st =
        (st, .warning "No sent folder found. Please check your email provider settings.", 0)) := by
  constructor
  · intro f hres
    obtain ⟨hp, l1, l2, heq, hall⟩ := find?_eq_some_split _ _ _ hres
    refine ⟨hp, ⟨l1, l2, heq, hall⟩, ?_⟩
    unfold sync_emails
    rw [if_neg (by simp [hc]), if_pos (show ("sent" : String) = "sent" from rfl), hres]
  · intro hres
    unfold sync_emails
    rw [if_neg (by simp [hc]), if_pos (show ("sent" : String) = "sent" from rfl), hres]

theorem setFolder_no_id (st : LocalState) (eid : Nat) (f : String) (X : Nat)
    (h : ∀ r ∈ st.records, r.id ≠ X) : ∀ r ∈ (setFolder st eid f).records, r.id ≠ X := by
  intro r hr
  unfold setFolder at hr
  rw [List.mem_map] at hr
  obtain ⟨a, ha, heq⟩ := hr
  subst heq
  split
  · exact h a ha
  · exact h a ha

theorem removeRecord_no_id (st : LocalState) (eid : Nat) (X : Nat)
    (h : ∀ r ∈ st.records, r.id ≠ X) : ∀ r ∈ (removeRecord st eid).records, r.id ≠ X := by
  intro r hr
  unfold removeRecord at hr
  exact h r (List.mem_of_mem_filter hr)

theorem removeRecord_no_id_self (st : LocalState) (eid : Nat) :
    ∀ r ∈ (removeRecord st eid).records, r.id ≠ eid := by
  intro r hr
  unfold removeRecord at hr
  have := (List.mem_filter.mp hr).2
  simpa using this

theorem bulkLocalStep_preserves_no_id (avail : Bool) (action : String)
    (acc : LocalState × Nat × List BulkOp) (e : EmailRecord) (X : Nat)
    (h : ∀ r ∈ acc.1.records, r.id ≠ X) :
    ∀ r ∈ (bulkLocalStep avail action acc e).1.records, r.id ≠ X := by
  unfold bulkLocalStep
  repeat' split
  all_goals first
    | exact setFolder_no_id _ _ _ _ h
    | exact removeRecord_no_id _ _ _ h
    | exact h

theorem bulkLocal_fold_preserves_no_id (avail : Bool) (action : String)
    (l : List EmailRecord) : ∀ (acc : LocalState × Nat × List BulkOp) (X : Nat),
    (∀ r ∈ acc.1.records, r.id ≠ X) →
    ∀ r ∈ (l.foldl (bulkLocalStep avail action) acc).1.records, r.id ≠ X := by
  induction l with
  | nil => exact fun acc X h => h
  | cons e rest ih =>
    intro acc X h
    rw [List.foldl_cons]
    exact ih _ X (bulkLocalStep_preserves_no_id avail action acc e X h)

/-- In a bulk delete, a selected row already in `trash` is removed and never
re-appears in the final state. -/
theorem bulkLocal_removes_trashed (avail : Bool) (l : List EmailRecord) :
    ∀ (acc : LocalState × Nat × List BulkOp), ∀ e ∈ l, e.folder = "trash" →
    ∀ r ∈ (l.foldl (bulkLocalStep avail "delete") acc).1.records, r.id ≠ e.id := by
  induction l with
  | nil => intro acc e he; cases he
  | cons e0 rest ih =>
    intro acc e he hf
    rcases List.mem_cons.mp he with rfl | he
    · rw [List.foldl_cons]
      apply bulkLocal_fold_preserves_no_id
      have hstep : bulkLocalStep avail "delete" acc e =
          (removeRecord acc.1 e.id, acc.2.1 + 1, acc.2.2) := by
        unfold bulkLocalStep
        rw [if_pos (show ("delete" : String) = "delete" from rfl),
          if_pos (show (e.folder == "trash") = true by simp [hf])]
      rw [hstep]
      exact removeRecord_no_id_self acc.1 e.id
    · rw [List.foldl_cons]
      exact ih _ e he hf

/-- The operation list queued by a bulk delete: one `(delete, uid, trash)`
entry per selected row that is not already in `trash` and has a truthy UID
while IMAP is available. -/
theorem bulkLocal_delete_ops (avail : Bool) (l : List EmailRecord) :
    ∀ (st : LocalState) (cnt : Nat) (ops : List BulkOp),
    (l.foldl (bulkLocalStep avail "delete") (st, cnt, ops)).2.2 =
      ops ++ l.filterMap (fun e =>
        if e.folder == "trash" then none
        else if avail && uidTruthy e.imap_uid then
          some ("delete", e.imap_uid.getD 0, "trash") else none) := by
  induction l with
  | nil => intro st cnt ops; simp
  | cons e rest ih =>
    intro st cnt ops
    rw [List.foldl_cons, List.filterMap_cons]
    by_cases he : (e.folder == "trash") = true
    · have hstep : bulkLocalStep avail "delete" (st, cnt, ops) e =
          (removeRecord st e.id, cnt + 1, ops) := by
        unfold bulkLocalStep
        rw [if_pos (show ("delete" : String) = "delete" from rfl), if_pos he]
      rw [hstep, he]
      exact ih _ _ _
    · rw [Bool.not_eq_true] at he
      by_cases hq : (avail && uidTruthy e.imap_uid) = true
      · have hstep : bulkLocalStep avail "delete" (st, cnt, ops) e =
            (setFolder st e.id "trash", cnt + 1,
             ops ++ [("delete", e.imap_uid.getD 0, "trash")]) := by
          unfold bulkLocalStep
          rw [if_pos (show ("delete" : String) = "delete" from rfl), if_neg (by simp [he]), hq]
          rfl
        rw [hstep, he, hq]
        rw [ih _ _ _]
        simp
      · rw [Bool.not_eq_true] at hq
        have hstep : bulkLocalStep avail "delete" (st, cnt, ops) e =
            (setFolder st e.id "trash", cnt + 1, ops) := by
          unfold bulkLocalStep
          rw [if_pos (show ("delete" : String) = "delete" from rfl), if_neg (by simp [he]), hq]
          rfl
        rw [hstep, he, hq]
        simp only [Bool.false_eq_true, if_false]
        exact ih _ _ _

theorem bulkRemoteFold_trace (env : ImapEnv) (gh : Bool) (ops : List BulkOp) :
    (bulkRemoteFold env gh ops).1 =
      ops.flatMap (fun op => (bulkRemoteOp env gh op).1) := by
  suffices h : ∀ (init : List ImapCmd × Nat),
      (ops.foldl (fun acc op =>
        (acc.1 ++ (bulkRemoteOp env gh op).1,
         acc.2 + (if (bulkRemoteOp env gh op).2 then 1 else 0))) init).1 =
      init.1 ++ ops.flatMap (fun op => (bulkRemoteOp env gh op).1) by
    have := h ([], 0)
    simpa [bulkRemoteFold] using this
  induction ops with
  | nil => intro init; simp
  | cons op rest ih =>
    intro init
    rw [List.foldl_cons, List.flatMap_cons, ih]
    simp

/-- A queued bulk delete of a row whose recorded source folder is `trash`
executes the in-place flag-and-expunge against the trash folder: never a
copy, and with healthy store and expunge the trace is exactly
select-store-expunge. -/
theorem bulkRemoteOp_delete_trash (env : ImapEnv) (gh : Bool) (op : BulkOp)
    (h1 : op.1 = "delete") (h2 : op.2.2 = "trash") :
    (∀ c ∈ (bulkRemoteOp env gh op).1, c.isCopy = false) ∧
    (env.storeRaises = false → env.expungeRaises = false →
      (bulkRemoteOp env gh op).1 =
        [.select "Trash", .storeDeleted op.2.1, .expunge]) := by
  unfold bulkRemoteOp
  rw [if_pos h1, if_pos h2, h2]
  constructor
  · intro c hc
    split at hc <;> [skip; split at hc] <;>
      (simp only [List.mem_cons, List.mem_append, List.mem_singleton,
        List.not_mem_nil, or_false] at hc
       rcases hc with rfl | rfl | rfl <;> rfl)
  · intro hst hex
    rw [hst, hex]
    simp [folderMappingMut]

theorem bulk_delete_ops_shape (avail : Bool) (l : List EmailRecord) (op : BulkOp)
    (h : op ∈ l.filterMap (fun e =>
      if e.folder == "trash" then none
      else if avail && uidTruthy e.imap_uid then
        some ("delete", e.imap_uid.getD 0, "trash") else none)) :
    op.1 = "delete" ∧ op.2.2 = "trash" := by
  rw [List.mem_filterMap] at h
  obtain ⟨e, _, hfe⟩ := h
  split at hfe
  · cases hfe
  · split at hfe
    · cases hfe
      exact ⟨rfl, rfl⟩
    · cases hfe

theorem bulkSelected_of_isEmpty (st : LocalState) (u : Nat) (ids : List Nat)
    (h : (bulkSelected st u ids).isEmpty = true) : bulkSelected st u ids = [] := by
  rwa [List.isEmpty_iff] at h

/-- C10: in a bulk delete, every queued remote operation records `trash` as
its source folder (the local folder is reassigned before the queue append),
the remote phase never issues a copy and, with healthy store and expunge,
runs exactly select-trash, flag, expunge per operation; a selected row
already in `trash` is deleted locally with no operation queued for it. -/
theorem bulk_delete_spec (st : LocalState) (u : Nat) (ids : List Nat)
    (avail gh : Bool) (env : ImapEnv) :
    (bulk_email_action st u ids "delete" avail gh env).ops =
      (bulkSelected st u ids).filterMap (fun e =>
        if e.folder == "trash" then none
        else if avail && uidTruthy e.imap_uid then
          some ("delete", e.imap_uid.getD 0, "trash") else none) ∧
    (∀ c ∈ (bulk_email_action st u ids "delete" avail gh env).trace, c.isCopy = false) ∧
    (env.storeRaises = false → env.expungeRaises = false →
      ∀ op ∈ (bulk_email_action st u ids "delete" avail gh env).ops,
        (bulkRemoteOp env gh op).1 =
          [.select "Trash", .storeDeleted op.2.1, .expunge]) ∧
    (∀ e ∈ bulkSelected st u ids, e.folder = "trash" →
      ∀ r ∈ (bulk_email_action st u ids "delete" avail gh env).st.records, r.id ≠ e.id) := by
  have hops := bulkLocal_delete_ops avail (bulkSelected st u ids) st 0 []
  rw [List.nil_append] at hops
  by_cases hids : ids.isEmpty = true
  · have hsel : bulkSelected st u ids = [] := by
      unfold bulkSelected
      rw [List.isEmpty_iff] at hids
      subst hids
      simp
    have hres : bulk_email_action st u ids "delete" avail gh env =
        ⟨st, "error", 400, 0, [], []⟩ := by
      unfold bulk_email_action
      rw [if_pos (by simp [hids])]
    rw [hres, hsel]
    refine ⟨by simp, by simp, ?_, ?_⟩
    · intro _ _ op hop
      cases hop
    · intro e he
      cases he
  · by_cases hselE : (bulkSelected st u ids).isEmpty = true
    · have hsel := bulkSelected_of_isEmpty st u ids hselE
      have hres : bulk_email_action st u ids "delete" avail gh env =
          ⟨st, "error", 404, 0, [], []⟩ := by
        unfold bulk_email_action
        rw [if_neg (by simp [hids]), hsel]
        rfl
      rw [hres, hsel]
      refine ⟨by simp, by simp, ?_, ?_⟩
      · intro _ _ op hop
        cases hop
      · intro e he
        cases he
    · have hres : bulk_email_action st u ids "delete" avail gh env =
          (let res := (bulkSelected st u ids).foldl (bulkLocalStep avail "delete") (st, 0, [])
           if avail && !res.2.2.isEmpty then
             if env.connectOk then
               ⟨res.1, if (bulkRemoteFold env gh res.2.2).2 = res.2.2.length
                 then "success" else "warning", 200, res.2.1, res.2.2,
                 .connect :: (bulkRemoteFold env gh res.2.2).1⟩
             else
               ⟨res.1, if 0 = res.2.2.length then "success" else "warning",
                 200, res.2.1, res.2.2, [.connect]⟩
           else ⟨res.1, "success", 200, res.2.1, res.2.2, []⟩) := by
        unfold bulk_email_action
        rw [if_neg (by simp [hids]), if_neg (by simp [hselE])]
      rw [hres]
      dsimp only
      refine ⟨?_, ?_, ?_, ?_⟩
      · split
        · split
          · exact hops
          · exact hops
        · exact hops
      · intro c hc
        split at hc
        · split at hc
          · simp only [BulkResult.trace] at hc hops ⊢
            rcases List.mem_cons.mp hc with rfl | hc
            · rfl
            · rw [bulkRemoteFold_trace, List.mem_flatMap] at hc
              obtain ⟨op, hopmem, hcop⟩ := hc
              rw [hops] at hopmem
              obtain ⟨h1, h2⟩ := bulk_delete_ops_shape avail _ op hopmem
              exact (bulkRemoteOp_delete_trash env gh op h1 h2).1 c hcop
          · simp only [BulkResult.trace, List.mem_singleton] at hc
            subst hc
            rfl
        · simp only [BulkResult.trace] at hc
          cases hc
      · intro hst hex op hopmem
        have hshape : op.1 = "delete" ∧ op.2.2 = "trash" := by
          apply bulk_delete_ops_shape avail _ op
          rw [← hops]
          revert hopmem
          split
          · split
            · exact fun h => h
            · exact fun h => h
          · exact fun h => h
        exact (bulkRemoteOp_delete_trash env gh op hshape.1 hshape.2).2 hst hex
      · intro e he hf r hr
        have hr' : r ∈ ((bulkSelected st u ids).foldl
            (bulkLocalStep avail "delete") (st, 0, [])).1.records := by
          revert hr
          split
          · split
            · exact fun h => h
            · exact fun h => h
          · exact fun h => h
        exact bulkLocal_removes_trashed avail (bulkSelected st u ids) (st, 0, []) e he hf r hr'

theorem probeFolders_mem_select (env : ImapEnv) (cands : List String) (c : ImapCmd)
    (h : c ∈ (probeFolders env cands).2) : ∃ g, c = .select g := by
  induction cands with
  | nil => cases h
  | cons a rest ih =>
    simp only [probeFolders] at h
    split at h
    · rw [List.mem_singleton] at h
      exact ⟨a, h⟩
    · rcases List.mem_cons.mp h with h | h
      · exact ⟨a, h⟩
      · exact ih h

theorem selectCurrentFolder_mem_select (env : ImapEnv) (folder : String) (c : ImapCmd)
    (h : c ∈ (selectCurrentFolder env folder).2) : ∃ g, c = .select g := by
  unfold selectCurrentFolder at h
  split at h
  · dsimp only at h
    split at h
    · exact probeFolders_mem_select env _ c h
    · exact probeFolders_mem_select env _ c h
  · dsimp only at h
    split at h
    · rw [List.mem_singleton] at h
      exact ⟨_, h⟩
    · rcases List.mem_cons.mp h with h | h
      · exact ⟨_, h⟩
      · rw [List.mem_singleton] at h
        exact ⟨_, h⟩

theorem copy_not_mem_probeFolders (env : ImapEnv) (cands : List String) (a : Nat) (b : String) :
    ImapCmd.copy a b ∉ (probeFolders env cands).2 := by
  intro h
  obtain ⟨g, hg⟩ := probeFolders_mem_select env cands _ h
  cases hg

theorem copy_not_mem_selectCurrentFolder (env : ImapEnv) (folder : String) (a : Nat) (b : String) :
    ImapCmd.copy a b ∉ (selectCurrentFolder env folder).2 := by
  intro h
  obtain ⟨g, hg⟩ := selectCurrentFolder_mem_select env folder _ h
  cases hg

/-- C2: per-account uniqueness of truthy message-id headers is preserved by
every sequence of full and incremental syncs: before inserting, each sync
looks up (user, message_id_header) and skips ingestion on a hit. -/
theorem runSyncs_msgIdUnique (u : Nat) (st : LocalState) (calls : List SyncCall)
    (h : msgIdUnique st) : msgIdUnique (runSyncs u st calls) := by
  induction calls generalizing st with
  | nil => exact h
  | cons call rest ih =>
    unfold runSyncs
    rw [List.foldl_cons]
    apply ih
    cases call with
    | full folder limit server => exact sync_emails_preserves_msgIdUnique u folder limit server st h
    | incr folder server => exact sync_new_emails_preserves_msgIdUnique u folder server st h

/-- C6: for delete, archive and restore on an existing row that meets the
operation's precondition, the local change (folder update or row removal) is
committed for every remote outcome, and a failed remote side (connection
down) degrades the result to a "warning" status instead of a failed call. -/
theorem local_first_mutations (st : LocalState) (u eid : Nat) (email : EmailRecord)
    (hfind : findById st u eid = some email) :
    (∀ env, (delete_email st u eid true true env).st = removeRecord st eid) ∧
    (email.folder ≠ "trash" →
      ∀ env, (delete_email st u eid false true env).st = setFolder st eid "trash") ∧
    (∀ gh env, (archive_email st u eid true gh env).st = setFolder st eid "archive") ∧
    (email.folder = "trash" →
      ∀ env, (restore_email st u eid true env).st = setFolder st eid "inbox") ∧
    (∀ env, env.connectOk = false →
      (delete_email st u eid true true env).status = "warning" ∧
      (email.folder ≠ "trash" → (delete_email st u eid false true env).status = "warning") ∧
      (∀ gh, (archive_email st u eid true gh env).status = "warning") ∧
      (email.folder = "trash" → (restore_email st u eid true env).status = "warning")) := by
  refine ⟨?_, ?_, ?_, ?_, ?_⟩
  · intro env
    unfold delete_email
    rw [hfind]
    simp only [Bool.true_or, Bool.not_true, if_false]
    repeat' split
    all_goals first | rfl | simp_all
  · intro hf env
    unfold delete_email
    rw [hfind]
    have hb : (email.folder == "trash") = false := by simp [hf]
    simp only [Bool.false_or, hb, Bool.not_true, if_false]
    repeat' split
    all_goals first | rfl | simp_all
  · intro gh env
    unfold archive_email
    rw [hfind]
    simp only [Bool.not_true, if_false]
    repeat' split
    all_goals first | rfl | simp_all
  · intro hf env
    unfold restore_email
    rw [hfind]
    have hb : (email.folder != "trash") = false := by simp [hf]
    simp only [hb, Bool.not_true, if_false]
    repeat' split
    all_goals first | rfl | simp_all
  · intro env hc
    refine ⟨?_, ?_, ?_, ?_⟩
    · unfold delete_email
      rw [hfind]
      simp [hc]
    · intro hf
      unfold delete_email
      rw [hfind]
      simp [hc]
    · intro gh
      unfold archive_email
      rw [hfind]
      simp [hc]
    · intro hf
      unfold restore_email
      rw [hfind]
      simp [hc, hf]

/-- C7 (amended): a non-permanent delete of a row already in `trash` removes
the local row (it is not kept in `trash`), never issues a remote copy, and
with a healthy connection performs exactly the in-place flag-and-expunge in
the trash folder, reported as success. -/
theorem delete_trashed_nonpermanent_spec (st : LocalState) (u eid v : Nat)
    (email : EmailRecord) (hfind : findById st u eid = some email)
    (hf : email.folder = "trash") (huid : email.imap_uid = some v) (hv : v ≠ 0) :
    (∀ env, (delete_email st u eid false true env).st = removeRecord st eid ∧
      ∀ c ∈ (delete_email st u eid false true env).trace, c.isCopy = false) ∧
    (∀ env, env.connectOk = true → env.selectOk "Trash" = true →
      env.storeRaises = false → env.expungeRaises = false →
      (delete_email st u eid false true env).trace =
        [.connect, .select "Trash", .storeDeleted v, .expunge] ∧
      (delete_email st u eid false true env).status = "success") := by
  constructor
  · intro env
    unfold delete_email
    rw [hfind]
    have hb : (email.folder == "trash") = true := by simp [hf]
    simp only [Bool.false_or, hb, Bool.not_true, if_false, if_true]
    constructor
    · repeat' split
      all_goals rfl
    · intro c hcmem
      cases c with
      | copy a b =>
        exfalso
        repeat' split at hcmem
        all_goals simp [copy_not_mem_probeFolders, copy_not_mem_selectCurrentFolder] at hcmem
      | connect => rfl
      | select g => rfl
      | storeDeleted a => rfl
      | expunge => rfl
  · intro env hc hsel hst hex
    unfold delete_email
    rw [hfind]
    have hb : (email.folder == "trash") = true := by simp [hf]
    have hut : uidTruthy email.imap_uid = true := by simp [uidTruthy, huid, hv]
    have hsel2 : (selectCurrentFolder env email.folder) = ("Trash", [.select "Trash"]) := by
      unfold selectCurrentFolder
      rw [if_neg (by rw [hf]; decide)]
      rw [hf]
      have hm : folderMappingMut "trash" = "Trash" := by decide
      rw [hm, if_pos hsel]
    simp only [Bool.false_or, hb, Bool.not_true, if_false, if_true, hc, hut, hsel2, hst, hex,
      huid, Option.getD_some]
    constructor <;> simp [uidTruthy, hv]

/-- C9: a restore of a row whose local folder is not `trash` is rejected
with an error result before any remote command, leaving the local store and
the remote server untouched. -/
theorem restore_rejects_non_trash (st : LocalState) (u eid : Nat) (email : EmailRecord)
    (hfind : findById st u eid = some email) (hf : email.folder ≠ "trash")
    (cfg : Bool) (env : ImapEnv) :
    restore_email st u eid cfg env = ⟨st, "error", 400, []⟩ := by
  unfold restore_email
  rw [hfind]
  dsimp only
  rw [if_pos (show (email.folder != "trash") = true by simp [hf])]

/-- C5: for an inbox holding UIDs 10, 11, 12, a full sync with limit 2 over
an empty store ingests UID 12 first (row id 0) and UID 11 second (row id 1),
both in folder inbox, stores 2 messages, and does not ingest UID 10. -/
theorem full_sync_scenario_10_11_12 :
    sync_emails 1 "inbox" 2 srvC5 emptyState =
      ({ records := [⟨0, 1, none, "inbox", some 12⟩, ⟨1, 1, none, "inbox", some 11⟩],
         nextId := 2 }, .success, 2) := by decide

theorem sync_limit_zero_rerun_cex :
    (sync_emails 1 "inbox" 0 srvC1 emptyState).2.2 = 1 ∧
    (sync_emails 1 "inbox" 0 srvC1 (sync_emails 1 "inbox" 0 srvC1 emptyState).1).2.2 = 1 := by
  decide

theorem delete_trashed_keeps_record_cex :
    (delete_email stC7 1 1 false true envAllOk).st.records = [] ∧
    stC7.records = [⟨1, 1, none, "trash", some 7⟩] := by decide

theorem sent_sync_no_folder_cex :
    sync_emails 1 "sent" 100 srvNoSent emptyState =
      (emptyState, .warning "No sent folder found. Please check your email provider settings.", 0) ∧
    (sync_emails 1 "inbox" 100 srvNoSent emptyState).2.2 = 1 := by decide

theorem sync_emails_rerun_idempotent_w :
    (sync_emails 1 "inbox" 100 srvC1 (sync_emails 1 "inbox" 100 srvC1 emptyState).1).1 =
      (sync_emails 1 "inbox" 100 srvC1 emptyState).1 ∧
    (sync_emails 1 "inbox" 100 srvC1 (sync_emails 1 "inbox" 100 srvC1 emptyState).1).2.2 = 0 :=
  sync_emails_rerun_idempotent 1 "inbox" 100 srvC1 emptyState (by decide)

theorem runSyncs_msgIdUnique_w :
    msgIdUnique (runSyncs 1 emptyState
      [SyncCall.full "inbox" 100 srvDup, SyncCall.incr "inbox" srvDup]) :=
  runSyncs_msgIdUnique 1 emptyState _ (by decide)

theorem inbox_sync_preserves_trashed_w :
    (⟨0, 1, some "m1", "trash", some 5⟩ : EmailRecord) ∈
      (sync_emails 1 "inbox" 100 srvC4 stTrash).1.records ∧
    (⟨0, 1, some "m1", "trash", some 5⟩ : EmailRecord) ∈
      (sync_new_emails 1 "inbox" srvC4 stTrash).1.records := by
  have h := inbox_sync_preserves_trashed 1 100 srvC4 stTrash
    ⟨0, 1, some "m1", "trash", some 5⟩ (by decide) (by decide) (Or.inl rfl)
  exact ⟨h.1.1, h.2.1⟩

theorem sync_new_cursor_spec_w :
    (∃ v, (⟨1, 1, none, "inbox", some 7⟩ : EmailRecord).imap_uid = some v ∧ 5 < v) ∧
    ((sync_new_emails 1 "inbox" srvC4 emptyState).1 =
        (sync_emails 1 "inbox" 20 srvC4 emptyState).1 ∧
     (sync_new_emails 1 "inbox" srvC4 emptyState).2.2 =
        (sync_emails 1 "inbox" 20 srvC4 emptyState).2.2) := by
  constructor
  · exact (sync_new_cursor_spec 1 "inbox" srvC4 stC4).1 5 (by decide) (by decide)
      ⟨1, 1, none, "inbox", some 7⟩ (by decide) (by decide)
  · refine (sync_new_cursor_spec 1 "inbox" srvC4 emptyState).2 ?_ (by decide)
    intro fname uid h
    simp only [srvC4] at h
    split at h
    · simp at h
      rcases h with rfl | rfl | rfl | rfl <;> decide
    · cases h

theorem local_first_mutations_w :
    (delete_email stMut 1 1 true true envDown).st = removeRecord stMut 1 ∧
    (delete_email stMut 1 1 false true envDown).st = setFolder stMut 1 "trash" ∧
    (archive_email stMut 1 1 true false envDown).st = setFolder stMut 1 "archive" ∧
    (restore_email stMut 1 2 true envDown).st = setFolder stMut 2 "inbox" ∧
    (delete_email stMut 1 1 false true envDown).status = "warning" ∧
    (restore_email stMut 1 2 true envDown).status = "warning" := by
  have h1 := local_first_mutations stMut 1 1 ⟨1, 1, none, "inbox", some 4⟩ (by decide)
  have h2 := local_first_mutations stMut 1 2 ⟨2, 1, none, "trash", some 7⟩ (by decide)
  exact ⟨h1.1 envDown, h1.2.1 (by decide) envDown, h1.2.2.1 false envDown,
    h2.2.2.2.1 (by decide) envDown, (h1.2.2.2.2 envDown (by decide)).2.1 (by decide),
    (h2.2.2.2.2 envDown (by decide)).2.2.2 (by decide)⟩

theorem delete_trashed_nonpermanent_spec_w :
    ((delete_email stC7 1 1 false true envAllOk).st = removeRecord stC7 1) ∧
    ((delete_email stC7 1 1 false true envAllOk).trace =
      [.connect, .select "Trash", .storeDeleted 7, .expunge]) ∧
    ((delete_email stC7 1 1 false true envAllOk).status = "success") := by
  have h := delete_trashed_nonpermanent_spec stC7 1 1 7 ⟨1, 1, none, "trash", some 7⟩
    (by decide) (by decide) (by decide) (by decide)
  exact ⟨(h.1 envAllOk).1,
    (h.2 envAllOk (by decide) (by decide) (by decide) (by decide)).1,
    (h.2 envAllOk (by decide) (by decide) (by decide) (by decide)).2⟩

theorem sent_sync_resolution_w :
    (srvSentOk.selectOk "Sent" = true ∧
     sync_emails 1 "sent" 100 srvSentOk emptyState =
       ((syncLoop 1 "sent" (srvSentOk.fetch "Sent") 100
           ((pyTail 100 (srvSentOk.searchAll "Sent")).reverse) emptyState 0 0).1, .success,
        (syncLoop 1 "sent" (srvSentOk.fetch "Sent") 100
           ((pyTail 100 (srvSentOk.searchAll "Sent")).reverse) emptyState 0 0).2)) ∧
    (sync_emails 1 "sent" 100 srvNoSent emptyState =
      (emptyState,
       .warning "No sent folder found. Please check your email provider settings.", 0)) := by
  have h1 := (sent_sync_resolution 1 100 srvSentOk emptyState (by decide)).1 "Sent" (by decide)
  have h2 := (sent_sync_resolution 1 100 srvNoSent emptyState (by decide)).2 (by decide)
  exact ⟨⟨h1.1, h1.2.2⟩, h2⟩

theorem restore_rejects_non_trash_w :
    restore_email stMut 1 1 true envAllOk = ⟨stMut, "error", 400, []⟩ :=
  restore_rejects_non_trash stMut 1 1 ⟨1, 1, none, "inbox", some 4⟩
    (by decide) (by decide) true envAllOk

theorem bulk_delete_spec_w :
    ((bulk_email_action stBulk 1 [1, 2] "delete" true false envAllOk).ops =
      (bulkSelected stBulk 1 [1, 2]).filterMap (fun e =>
        if e.folder == "trash" then none
        else if true && uidTruthy e.imap_uid then
          some ("delete", e.imap_uid.getD 0, "trash") else none)) ∧
    (ImapCmd.isCopy (ImapCmd.select "Trash") = false) ∧
    ((bulkRemoteOp envAllOk false ("delete", 9, "trash")).1 =
      [.select "Trash", .storeDeleted 9, .expunge]) ∧
    ((⟨2, 1, none, "trash", some 9⟩ : EmailRecord).id ≠
      (⟨1, 1, none, "trash", some 5⟩ : EmailRecord).id) := by
  have h := bulk_delete_spec stBulk 1 [1, 2] true false envAllOk
  refine ⟨h.1, ?_, ?_, ?_⟩
  · exact h.2.1 (ImapCmd.select "Trash") (by decide)
  · exact h.2.2.1 (by decide) (by decide) ("delete", 9, "trash") (by decide)
  · exact h.2.2.2 ⟨1, 1, none, "trash", some 5⟩ (by decide) (by decide)
      ⟨2, 1, none, "trash", some 9⟩ (by decide)
